import Mathlib

/-!
# IconVG decoder: a shallow embedding in Lean 4

This file embeds the IconVG C decoder (`src/c/decoder.c`, `src/c/errors.c`,
`src/c/aaa_public.h`, plus the older single-file variant shipped in the
repository, here suffixed `V0`) and proves properties about it.

Conventions of the embedding:
* Bytes are `Nat` values (< 256 where it matters, stated as hypotheses).
  A decoder cursor `iconvg_private_decoder { ptr, len }` is the list of its
  remaining bytes; advancing `ptr` by `k` is `List.drop k`.
* C `float` / `double` values are modelled by `FV`: either NaN, a signed
  infinity, or an exact rational. Where the C code performs arithmetic that
  can round (double multiply/add/divide, double-to-float narrowing), the
  embedding rounds to nearest-even at the corresponding precision
  (binary32: 24-bit significand, exponents down to -149; binary64: 53-bit,
  down to -1074). Where the C arithmetic is exact (small-integer int-to-float
  conversions, division by the power of two 64.0f in the 2-byte coordinate
  decoder), the embedding uses the exact rational directly.
* The two signed zeros are conflated into `FV.fin 0`; none of the decoder
  logic distinguishes them.
-/

namespace IconVG

/-- Model of a C `float`/`double` value: NaN, a signed infinity, or an exact
finite rational. -/
inductive FV where
  | nan : FV
  | inf (neg : Bool) : FV
  | fin (q : ℚ) : FV
deriving DecidableEq, Repr

/-- IEEE-754 `<` on modelled values: any comparison with NaN is false. -/
def FV.lt : FV → FV → Bool
  | .nan, _ => false
  | _, .nan => false
  | .inf n1, .inf n2 => n1 && !n2
  | .inf n, .fin _ => n
  | .fin _, .inf n => !n
  | .fin a, .fin b => decide (a < b)

/-- IEEE-754 `<=` on modelled values: any comparison with NaN is false. -/
def FV.le : FV → FV → Bool
  | .nan, _ => false
  | _, .nan => false
  | .inf n1, .inf n2 => n1 || !n2
  | .inf n, .fin _ => n
  | .fin _, .inf n => !n
  | .fin a, .fin b => decide (a ≤ b)

/-- `2^s` as an exact rational (computed through `Nat.pow` rather than the
unary `zpow` recursion, for tractable kernel evaluation). -/
def qpow2 (s : ℤ) : ℚ :=
  if 0 ≤ s then ((2 ^ s.toNat : ℕ) : ℚ) else ((2 ^ (-s).toNat : ℕ) : ℚ)⁻¹

/-- `2^k ≤ a`, for a positive rational `a` and `k : ℤ`, decided exactly. -/
def twoPowLE (k : ℤ) (a : ℚ) : Bool :=
  decide (qpow2 k ≤ a)

/-- Floor of the base-2 logarithm of a positive rational. Computes a
candidate from the bit-lengths of numerator and denominator, then corrects
it by exact comparison (the candidate is within 2 of the true value). -/
def ratLog2 (a : ℚ) : ℤ :=
  let c : ℤ := (Nat.log2 a.num.natAbs : ℤ) - (Nat.log2 a.den : ℤ)
  if twoPowLE (c + 2) a then c + 2
  else if twoPowLE (c + 1) a then c + 1
  else if twoPowLE c a then c
  else if twoPowLE (c - 1) a then c - 1
  else c - 2

/-- Round a rational to an integer, ties to even. -/
def roundTiesEven (x : ℚ) : ℤ :=
  let n := ⌊x⌋
  let r := x - (n : ℚ)
  if r < 1/2 then n
  else if 1/2 < r then n + 1
  else if n % 2 = 0 then n else n + 1

/-- Round a positive rational to the nearest representable binary float with
a `prec`-bit significand and exponent range `[emin, emax]` (round to nearest,
ties to even; gradual underflow; overflow to infinity). -/
def roundPos (prec : ℕ) (emin emax : ℤ) (a : ℚ) : FV :=
  let e : ℤ := max (ratLog2 a) emin
  let s : ℤ := e - ((prec : ℤ) - 1)
  let m : ℤ := roundTiesEven (a / qpow2 s)
  let v : ℚ := (m : ℚ) * qpow2 s
  if v = 0 then .fin 0
  else if (((2 ^ prec - 1 : ℕ) : ℚ)) * qpow2 (emax - (prec : ℤ) + 1) < v then .inf false
  else .fin v

/-- Round a rational to the nearest binary float of the given format. -/
def roundQ (prec : ℕ) (emin emax : ℤ) (q : ℚ) : FV :=
  if q = 0 then .fin 0
  else if 0 < q then roundPos prec emin emax q
  else
    match roundPos prec emin emax (-q) with
    | .fin v => .fin (-v)
    | .inf _ => .inf true
    | .nan => .nan

/-- Round a rational to the nearest binary32 (`float`) value. -/
def f32ofQ (q : ℚ) : FV := roundQ 24 (-126) 127 q

/-- Round a rational to the nearest binary64 (`double`) value. -/
def f64ofQ (q : ℚ) : FV := roundQ 53 (-1022) 1023 q

/-- Narrow a `double` value to `float` (C implicit conversion). -/
def f32ofFV : FV → FV
  | .fin q => f32ofQ q
  | v => v

/-- Generic IEEE addition over `FV`, parametrised by the rounding of the
exact rational result. -/
def FV.addR (round : ℚ → FV) : FV → FV → FV
  | .nan, _ => .nan
  | _, .nan => .nan
  | .inf a, .inf b => if a = b then .inf a else .nan
  | .inf a, .fin _ => .inf a
  | .fin _, .inf b => .inf b
  | .fin a, .fin b => round (a + b)

/-- Generic IEEE subtraction over `FV`. -/
def FV.subR (round : ℚ → FV) : FV → FV → FV
  | .nan, _ => .nan
  | _, .nan => .nan
  | .inf a, .inf b => if a = b then .nan else .inf a
  | .inf a, .fin _ => .inf a
  | .fin _, .inf b => .inf !b
  | .fin a, .fin b => round (a - b)

/-- Generic IEEE multiplication over `FV`. -/
def FV.mulR (round : ℚ → FV) : FV → FV → FV
  | .nan, _ => .nan
  | _, .nan => .nan
  | .inf a, .inf b => .inf (a != b)
  | .inf a, .fin q => if q = 0 then .nan else .inf (a != decide (q < 0))
  | .fin q, .inf b => if q = 0 then .nan else .inf (b != decide (q < 0))
  | .fin a, .fin b => round (a * b)

/-- Generic IEEE division over `FV` (zero signs conflated: finite/0 gives
`+inf` for a nonzero finite dividend, matching `1.0 / +0.0`). -/
def FV.divR (round : ℚ → FV) : FV → FV → FV
  | .nan, _ => .nan
  | _, .nan => .nan
  | .inf _, .inf _ => .nan
  | .inf a, .fin q => .inf (a != decide (q < 0))
  | .fin q, .inf _ => if q = 0 then .fin 0 else .fin 0
  | .fin a, .fin b =>
    if b = 0 then (if a = 0 then .nan else .inf (decide (a < 0)))
    else round (a / b)

/-- `float` addition. -/
def f32Add (a b : FV) : FV := FV.addR f32ofQ a b
/-- `float` subtraction. -/
def f32Sub (a b : FV) : FV := FV.subR f32ofQ a b
/-- `float` multiplication. -/
def f32Mul (a b : FV) : FV := FV.mulR f32ofQ a b
/-- `double` addition. -/
def f64Add (a b : FV) : FV := FV.addR f64ofQ a b
/-- `double` subtraction. -/
def f64Sub (a b : FV) : FV := FV.subR f64ofQ a b
/-- `double` multiplication. -/
def f64Mul (a b : FV) : FV := FV.mulR f64ofQ a b
/-- `double` division. -/
def f64Div (a b : FV) : FV := FV.divR f64ofQ a b

/-- `iconvg_private_peek_u16le`: little-endian 16-bit read of the first two
remaining bytes. -/
def peekU16le (b0 b1 : ℕ) : ℕ := b0 + b1 * 256

/-- `iconvg_private_peek_u32le`: little-endian 32-bit read of the first four
remaining bytes. -/
def peekU32le (b0 b1 b2 b3 : ℕ) : ℕ :=
  b0 + b1 * 256 + b2 * 65536 + b3 * 16777216

/-- `iconvg_private_reinterpret_from_u32_to_f32`: decode a 32-bit pattern as
an IEEE-754 binary32 value. -/
def f32FromBits (n : ℕ) : FV :=
  let s : ℕ := n / 2 ^ 31 % 2
  let e : ℕ := n / 2 ^ 23 % 2 ^ 8
  let m : ℕ := n % 2 ^ 23
  if e = 255 then
    if m = 0 then .inf (s = 1) else .nan
  else
    let mag : ℚ :=
      if e = 0 then (m : ℚ) * qpow2 (-149)
      else ((2 ^ 23 + m : ℕ) : ℚ) * qpow2 ((e : ℤ) - 150)
    .fin (if s = 1 then -mag else mag)

/-! ## Variable-length number decoders

Each decoder takes the remaining bytes and returns `none` (cursor
unchanged) or `some` of the decoded value and the bytes remaining after the
consumed encoding. -/

/-- `iconvg_private_decoder__decode_natural_number`. -/
def decodeNaturalNumber : List ℕ → Option (ℕ × List ℕ)
  | [] => none
  | v :: rest =>
    if v % 2 = 0 then
      some (v / 2, rest)
    else if v / 2 % 2 = 0 then
      match rest with
      | r1 :: rest2 => some (peekU16le v r1 / 4, rest2)
      | [] => none
    else
      match rest with
      | r1 :: r2 :: r3 :: rest4 => some (peekU32le v r1 r2 r3 / 4, rest4)
      | _ => none

/-- `iconvg_private_decoder__decode_coordinate_number`.

The 1-byte branch computes `(float)(i - 64)` with `0 ≤ i ≤ 127`; the 2-byte
branch computes `((float)(i - 8192)) / 64.0f` with `0 ≤ i ≤ 16383`. Both are
exact in binary32 (integers of magnitude at most 2^14 and quotients by the
power of two 64 with magnitude at least 2^-6 are exactly representable), so
the embedding uses the exact rationals. -/
def decodeCoordinateNumber : List ℕ → Option (FV × List ℕ)
  | [] => none
  | v :: rest =>
    if v % 2 = 0 then
      some (.fin (((v / 2 : ℕ) : ℤ) - 64), rest)
    else if v / 2 % 2 = 0 then
      match rest with
      | r1 :: rest2 =>
        some (.fin (((((peekU16le v r1 / 4 : ℕ) : ℤ) - 128 * 64 : ℤ) : ℚ) / 64), rest2)
      | [] => none
    else
      match rest with
      | r1 :: r2 :: r3 :: rest4 =>
        some (f32FromBits (0xFFFFFFFC &&& peekU32le v r1 r2 r3), rest4)
      | _ => none

/-- `iconvg_private_decoder__decode_real_number`. The 1- and 2-byte branches
convert a natural number below 2^14 to `float`, which is exact. -/
def decodeRealNumber : List ℕ → Option (FV × List ℕ)
  | [] => none
  | v :: rest =>
    if v % 2 = 0 then
      some (.fin (v / 2 : ℕ), rest)
    else if v / 2 % 2 = 0 then
      match rest with
      | r1 :: rest2 => some (.fin (peekU16le v r1 / 4 : ℕ), rest2)
      | [] => none
    else
      match rest with
      | r1 :: r2 :: r3 :: rest4 =>
        some (f32FromBits (0xFFFFFFFC &&& peekU32le v r1 r2 r3), rest4)
      | _ => none

/-- `iconvg_private_decoder__decode_zero_to_one_number`. The 1- and 2-byte
branches divide in `double` (which rounds) and then narrow to `float`. -/
def decodeZeroToOneNumber : List ℕ → Option (FV × List ℕ)
  | [] => none
  | v :: rest =>
    if v % 2 = 0 then
      some (f32ofFV (f64Div (.fin (v / 2 : ℕ)) (.fin 120)), rest)
    else if v / 2 % 2 = 0 then
      match rest with
      | r1 :: rest2 =>
        some (f32ofFV (f64Div (.fin (peekU16le v r1 / 4 : ℕ)) (.fin 15120)), rest2)
      | [] => none
    else
      match rest with
      | r1 :: r2 :: r3 :: rest4 =>
        some (f32FromBits (0xFFFFFFFC &&& peekU32le v r1 r2 r3), rest4)
      | _ => none

/-- `iconvg_private_decoder__decode_magic_identifier` (decoder.c): requires
the four literal bytes `0x89 0x49 0x56 0x47`, else fails. -/
def decodeMagicIdentifier : List ℕ → Option (List ℕ)
  | b0 :: b1 :: b2 :: b3 :: rest =>
    if b0 = 0x89 ∧ b1 = 0x49 ∧ b2 = 0x56 ∧ b3 = 0x47 then some rest else none
  | _ => none

/-- The older single-file variant of `decode_magic_identifier` joins its
conditions with `&&` instead of `||`: it rejects only when the input is
short AND all four bytes mismatch. (When the input is shorter than four
bytes it also reads past the end; the embedding reads such bytes as 0, and
`len -= 4` underflows; the underflowed cursor is modelled as empty.) -/
def decodeMagicIdentifierV0 (d : List ℕ) : Option (List ℕ) :=
  if d.length < 4 ∧ d.getD 0 0 ≠ 0x89 ∧ d.getD 1 0 ≠ 0x49 ∧
      d.getD 2 0 ≠ 0x56 ∧ d.getD 3 0 ≠ 0x47 then
    none
  else
    some (d.drop 4)

/-! ## Errors, rectangles, colors, palettes -/

/-- The `iconvg_error_*` string constants (`errors.c`, `aaa_public.h`).
They are compared by pointer identity in C, so an inductive type is a
faithful model. `custom n` stands for an arbitrary non-NULL error string
returned by a canvas callback. -/
inductive Err where
  | badMagicIdentifier
  | badMetadata
  | badMetadataIdOrder
  | badMetadataSuggestedPalette
  | badMetadataViewbox
  | badColor
  | badCoordinate
  | badNumber
  | badStylingOpcode
  | badDrawingOpcode
  | badPathUnfinished
  | invalidPaintType
  | unsupportedVtable
  | internalUnreachable
  | custom (n : ℕ)
deriving DecidableEq, Repr

/-- `iconvg_rectangle_f32`: four float32 coordinates. -/
structure Rect where
  minX : FV
  minY : FV
  maxX : FV
  maxY : FV
deriving DecidableEq, Repr

instance : DecidableEq (Except Err Rect) := fun a b =>
  match a, b with
  | .ok x, .ok y => if h : x = y then .isTrue (by rw [h]) else .isFalse (by simp [h])
  | .error x, .error y => if h : x = y then .isTrue (by rw [h]) else .isFalse (by simp [h])
  | .ok _, .error _ => .isFalse (by simp)
  | .error _, .ok _ => .isFalse (by simp)

/-- Modelled from the spec: `iconvg_private_default_viewbox` is not under
`src/`; the public header and the old single-file variant both give the
default ViewBox `(-32, -32, +32, +32)`. -/
def defaultViewbox : Rect :=
  { minX := .fin (-32), minY := .fin (-32), maxX := .fin 32, maxY := .fin 32 }

/-- An RGBA color, four bytes. Models both `iconvg_premul_color` and
`iconvg_nonpremul_color` (the distinction is nominal in C). -/
structure Color where
  r : ℕ
  g : ℕ
  b : ℕ
  a : ℕ
deriving DecidableEq, Repr

/-- `iconvg_palette`: 64 colors. -/
abbrev Palette : Type := List Color

/-- Modelled from the spec: `iconvg_private_default_palette` is not under
`src/`; the spec says the default palette is 64 copies of fully-opaque
black. -/
def defaultPalette : Palette := List.replicate 64 ⟨0, 0, 0, 0xFF⟩

/-- `iconvg_private_decoder__decode_metadata_viewbox` (decoder.c): decode
four coordinate numbers into `min_x, min_y, max_x, max_y` and then require
`-inf < min_x <= max_x < +inf` and `-inf < min_y <= max_y < +inf`. The
`&&` chain short-circuits, so the returned rectangle and cursor reflect the
decodes performed so far even on failure. -/
def decodeMetadataViewbox (d : List ℕ) (dst : Rect) : Bool × Rect × List ℕ :=
  match decodeCoordinateNumber d with
  | none => (false, dst, d)
  | some (v0, d1) =>
    let dst := { dst with minX := v0 }
    match decodeCoordinateNumber d1 with
    | none => (false, dst, d1)
    | some (v1, d2) =>
      let dst := { dst with minY := v1 }
      match decodeCoordinateNumber d2 with
      | none => (false, dst, d2)
      | some (v2, d3) =>
        let dst := { dst with maxX := v2 }
        match decodeCoordinateNumber d3 with
        | none => (false, dst, d3)
        | some (v3, d4) =>
          let dst := { dst with maxY := v3 }
          (FV.lt (.inf true) dst.minX && FV.le dst.minX dst.maxX &&
             FV.lt dst.maxX (.inf false) && FV.lt (.inf true) dst.minY &&
             FV.le dst.minY dst.maxY && FV.lt dst.maxY (.inf false),
           dst, d4)

/-- The older single-file variant of `decode_metadata_viewbox`: the same
four coordinate decodes but no range checks at all. -/
def decodeMetadataViewboxV0 (d : List ℕ) (dst : Rect) : Bool × Rect × List ℕ :=
  match decodeCoordinateNumber d with
  | none => (false, dst, d)
  | some (v0, d1) =>
    let dst := { dst with minX := v0 }
    match decodeCoordinateNumber d1 with
    | none => (false, dst, d1)
    | some (v1, d2) =>
      let dst := { dst with minY := v1 }
      match decodeCoordinateNumber d2 with
      | none => (false, dst, d2)
      | some (v2, d3) =>
        let dst := { dst with maxX := v2 }
        match decodeCoordinateNumber d3 with
        | none => (false, dst, d3)
        | some (v3, d4) => (true, { dst with maxY := v3 }, d4)

/-- Expand suggested-palette payload bytes into colors, `bpe` bytes per
element (`decode_metadata_suggested_palette`'s four switch cases).
`oneByte u` stands for the built-in table `iconvg_private_one_byte_colors`
(not under `src/`), read little-endian as the four RGBA bytes. -/
def parsePaletteColors (oneByte : ℕ → Color) (bpe : ℕ) : ℕ → List ℕ → List Color
  | 0, _ => []
  | n + 1, p =>
    match bpe, p with
    | 1, u :: p1 =>
      (if u < 0x80 then oneByte u else ⟨0, 0, 0, 0xFF⟩) ::
        parsePaletteColors oneByte bpe n p1
    | 2, rg :: ba :: p2 =>
      ⟨0x11 * (rg / 16), 0x11 * (rg % 16), 0x11 * (ba / 16), 0x11 * (ba % 16)⟩ ::
        parsePaletteColors oneByte bpe n p2
    | 3, r :: g :: b :: p3 =>
      ⟨r, g, b, 0xFF⟩ :: parsePaletteColors oneByte bpe n p3
    | 4, r :: g :: b :: a :: p4 =>
      ⟨r, g, b, a⟩ :: parsePaletteColors oneByte bpe n p4
    | _, _ => []

/-- Overwrite the first `cs.length` entries of a palette. -/
def overwritePalette (dst : Palette) (cs : List Color) : Palette :=
  cs ++ dst.drop cs.length

/-- `iconvg_private_decoder__decode_metadata_suggested_palette`
(decoder.c): first byte encodes the element count (low 6 bits, plus 1) and
the bytes per element (high 2 bits, plus 1); the rest of the chunk must be
exactly `n * bytes_per_elem` bytes. -/
def decodeMetadataSuggestedPalette (oneByte : ℕ → Color) (d : List ℕ)
    (dst : Palette) : Bool × Palette × List ℕ :=
  match d with
  | [] => (false, dst, [])
  | sb :: rest =>
    let n : ℕ := 1 + sb % 64
    let bpe : ℕ := 1 + sb / 64 % 4
    if rest.length ≠ n * bpe then (false, dst, rest)
    else (true, overwritePalette dst (parsePaletteColors oneByte bpe n rest), [])

/-! ## `iconvg_decode_viewbox` -/

/-- The metadata-chunk loop of `iconvg_decode_viewbox` (decoder.c lines
905-936). Carries the `use_default_viewbox` flag, the value written through
`dst_viewbox` so far, and the previous metadata id (an `int32_t`, initially
-1; decoded ids are below 2^30 so the C cast `(int32_t)metadata_id` is the
identity). Non-zero ids are skipped without error. -/
def viewboxMetadataLoop : ℕ → ℤ → Bool → Rect → List ℕ →
    Except Err (Bool × Rect × List ℕ)
  | 0, _, useDefault, dst, d => .ok (useDefault, dst, d)
  | n + 1, prevId, useDefault, dst, d =>
    match decodeNaturalNumber d with
    | none => .error .badMetadata
    | some (chunkLength, d1) =>
      if d1.length < chunkLength then .error .badMetadata
      else
        match decodeNaturalNumber (d1.take chunkLength) with
        | none => .error .badMetadata
        | some (mid, chunkRest) =>
          if prevId ≥ (mid : ℤ) then .error .badMetadataIdOrder
          else if mid = 0 then
            let (ok, r, rem) := decodeMetadataViewbox chunkRest ⟨.fin 0, .fin 0, .fin 0, .fin 0⟩
            if ok = false ∨ rem ≠ [] then .error .badMetadataViewbox
            else viewboxMetadataLoop n (mid : ℤ) false r (d1.drop chunkLength)
          else viewboxMetadataLoop n (mid : ℤ) useDefault dst (d1.drop chunkLength)

/-- `iconvg_decode_viewbox` (decoder.c): returns the explicit ViewBox if an
id-0 metadata chunk is present, otherwise the default; or the first error. -/
def decodeViewbox (src : List ℕ) : Except Err Rect :=
  match decodeMagicIdentifier src with
  | none => .error .badMagicIdentifier
  | some d =>
    match decodeNaturalNumber d with
    | none => .error .badMetadata
    | some (numChunks, d1) =>
      match viewboxMetadataLoop numChunks (-1) true ⟨.fin 0, .fin 0, .fin 0, .fin 0⟩ d1 with
      | .error e => .error e
      | .ok (useDefault, dst, _) => .ok (if useDefault then defaultViewbox else dst)

/-- The metadata-chunk loop of the older single-file `iconvg_decode_viewbox`
(part_000 lines 292-318): same framing, but no metadata-id-order check and
no ViewBox range checks. -/
def viewboxMetadataLoopV0 : ℕ → Bool → Rect → List ℕ →
    Except Err (Bool × Rect × List ℕ)
  | 0, useDefault, dst, d => .ok (useDefault, dst, d)
  | n + 1, useDefault, dst, d =>
    match decodeNaturalNumber d with
    | none => .error .badMetadata
    | some (chunkLength, d1) =>
      if d1.length < chunkLength then .error .badMetadata
      else
        match decodeNaturalNumber (d1.take chunkLength) with
        | none => .error .badMetadata
        | some (mid, chunkRest) =>
          if mid = 0 then
            let (ok, r, rem) := decodeMetadataViewboxV0 chunkRest ⟨.fin 0, .fin 0, .fin 0, .fin 0⟩
            if ok = false ∨ rem ≠ [] then .error .badMetadataViewbox
            else viewboxMetadataLoopV0 n false r (d1.drop chunkLength)
          else viewboxMetadataLoopV0 n useDefault dst (d1.drop chunkLength)

/-- The older single-file `iconvg_decode_viewbox` (part_000), built on the
`&&`-joined magic check and the checkless metadata helpers. -/
def decodeViewboxV0 (src : List ℕ) : Except Err Rect :=
  match decodeMagicIdentifierV0 src with
  | none => .error .badMagicIdentifier
  | some d =>
    match decodeNaturalNumber d with
    | none => .error .badMetadata
    | some (numChunks, d1) =>
      match viewboxMetadataLoopV0 numChunks true ⟨.fin 0, .fin 0, .fin 0, .fin 0⟩ d1 with
      | .error e => .error e
      | .ok (useDefault, dst, _) => .ok (if useDefault then defaultViewbox else dst)

/-! ## Canvas contract and traces

The canvas vtable is modelled as a single response function: given the
events previously delivered to this canvas and the new event (which carries
the arguments of the corresponding vtable call), it returns `none` (the C
callback returned NULL) or `some err`. The trace records every callback
invocation, tagged with whether it went to the caller's canvas (`true`) or
to the internal no-op canvas (`false`). The `ICONVG_PRIVATE_TRY` macro
(from the missing `aaa_private.h`) returns any non-NULL callback result
immediately; `emitSeq` below models that short-circuit. -/

/-- One canvas callback invocation, with its arguments. -/
inductive Event where
  | beginDecode (r : Rect)
  | endDecode (err : Option Err) (consumed remaining : ℕ)
  | beginDrawing
  | endDrawing (paint : Color)
  | beginPath (x y : FV)
  | endPath
  | pathLineTo (x y : FV)
  | pathQuadTo (x1 y1 x2 y2 : FV)
  | pathCubeTo (x1 y1 x2 y2 x3 y3 : FV)
  | onMetadataViewbox (vb : Rect)
  | onMetadataSuggestedPalette (p : Palette)
deriving DecidableEq, Repr

/-- A traced event: the flag says whether the caller's canvas received it
(`true`) or the internal no-op canvas did (`false`). -/
abbrev TEvent : Type := Bool × Event

abbrev Trace : Type := List TEvent

/-- The events previously delivered to the caller's canvas. -/
def userEvents (tr : Trace) : List Event := (tr.filter (·.1)).map (·.2)

/-- A canvas: the vtable-size field check outcome, plus the callbacks as
one (possibly history-dependent) response function. -/
structure Canvas where
  sizeofOk : Bool
  respond : List Event → Event → Option Err

/-- Modelled from the spec: `iconvg_make_broken_canvas` is not under
`src/`; the public header specifies that with a NULL `err_msg` every
callback is a no-op success (returns NULL). It is built by the library, so
its vtable-size field matches. -/
def brokenCanvasNull : Canvas :=
  { sizeofOk := true, respond := fun _ _ => none }

/-- Dispatch one callback: the no-op canvas never errs and never consults
any response function. -/
def respondTo (cv : Canvas) (user : Bool) (tr : Trace) (e : Event) : Option Err :=
  if user then cv.respond (userEvents tr) e else none

/-- Invoke a sequence of callbacks on one canvas, `ICONVG_PRIVATE_TRY`
style: each event is recorded, and the first non-NULL response stops the
sequence. -/
def emitSeq (cv : Canvas) (user : Bool) : Trace → List Event → Trace × Option Err
  | tr, [] => (tr, none)
  | tr, e :: es =>
    match respondTo cv user tr e with
    | some err => (tr ++ [(user, e)], some err)
    | none => emitSeq cv user (tr ++ [(user, e)]) es

/-! ## The bytecode interpreter -/

/-- `iconvg_private_path_arc_to`'s arguments (the helper itself is an
external collaborator per the spec and is not under `src/`). -/
structure ArcArgs where
  scaleX : FV
  biasX : FV
  scaleY : FV
  biasY : FV
  x0 : FV
  y0 : FV
  x1 : FV
  y1 : FV
  x2 : FV
  largeArc : Bool
  sweep : Bool
  finalX : FV
  finalY : FV

/-- Arguments of one `path_cube_to` call produced by the arc helper. -/
structure CubeArgs where
  x1 : FV
  y1 : FV
  x2 : FV
  y2 : FV
  x3 : FV
  y3 : FV

/-- The helpers referenced by `decoder.c` whose definitions are not under
`src/`. The claims proved below hold for every instantiation, so these are
universally quantified parameters rather than modelled code:
* `oneByteColors`: the built-in 128-entry table `iconvg_private_one_byte_colors`;
* `setOneByteColor`: `iconvg_private_set_one_byte_color(rgba, custom_palette,
  creg, b)` as a function of the palettes and payload byte;
* `paintInvalid`: whether `iconvg_paint__type(state)` is
  `ICONVG_PAINT_TYPE__INVALID`, as a function of `state->paint_rgba`;
* `arcTo`: the `path_cube_to` argument tuples that
  `iconvg_private_path_arc_to` forwards to the canvas. -/
structure Env where
  oneByteColors : ℕ → Color
  setOneByteColor : Palette → Palette → ℕ → Color
  paintInvalid : Color → Bool
  arcTo : ArcArgs → List CubeArgs

/-- The interpreter's mode: the two `while` loops of
`iconvg_private_execute_bytecode`. -/
inductive Mode where
  | styling
  | drawing
deriving DecidableEq, Repr

/-- The interpreter state: the cursor, the current-canvas choice, the local
float variables, the selector pair, the LOD bounds, and the paint state
(`iconvg_paint`) fields the decoder reads or writes. -/
structure EState where
  d : List ℕ
  mode : Mode
  curUser : Bool
  currX : FV
  currY : FV
  x1 : FV
  y1 : FV
  x2 : FV
  y2 : FV
  x3 : FV
  y3 : FV
  flagsReg : ℕ
  sel0 : ℕ
  sel1 : ℕ
  lod0 : FV
  lod1 : FV
  creg : Palette
  nreg : List FV
  customPalette : Palette
  paintRgba : Color
  heightInPixels : ℤ
  scaleX : FV
  biasX : FV
  scaleY : FV
  biasY : FV
deriving DecidableEq, Repr

/-- The static `adjustments[8] = {0, 1, 2, 3, 4, 5, 6, 0}` table. -/
def adjustments : ℕ → ℕ
  | 0 => 0
  | 1 => 1
  | 2 => 2
  | 3 => 3
  | 4 => 4
  | 5 => 5
  | 6 => 6
  | _ => 0

/-- `(sel - adjustments[opcode & 0x07]) & 0x3F` in `uint32_t` arithmetic
(`sel` is kept below 2^32 by every update). -/
def regIndex (sel opcode : ℕ) : ℕ :=
  (sel + (2 ^ 32 - adjustments (opcode % 8))) % 2 ^ 32 % 64

/-- `sel += ((opcode & 0x07) == 0x07) ? 1 : 0`, wrapping at 2^32. -/
def selBump (sel opcode : ℕ) : ℕ :=
  if opcode % 8 = 7 then (sel + 1) % 2 ^ 32 else sel

/-- Transform an x coordinate to destination space and narrow it to the
`float` callback parameter: `(float)((curr_x * scale_x) + bias_x)` with the
multiply and add in `double`. -/
def txX (st : EState) (x : FV) : FV := f32ofFV (f64Add (f64Mul x st.scaleX) st.biasX)

/-- Transform a y coordinate to destination space (see `txX`). -/
def txY (st : EState) (y : FV) : FV := f32ofFV (f64Add (f64Mul y st.scaleY) st.biasY)

/-- `(double)state->height_in_pixels`, rounded like the C conversion. -/
def heightF64 (st : EState) : FV := f64ofQ (st.heightInPixels : ℚ)

/-- Result of one interpreter step: continue with a new state, or stop with
the function's result (`none` = NULL = success) and the final cursor. -/
inductive StepNext where
  | cont (st : EState)
  | stop (res : Option Err) (dRem : List ℕ)
deriving DecidableEq, Repr

/-- The shared tail of every drawing operation: invoke the given callbacks
on the current canvas (`ICONVG_PRIVATE_TRY` short-circuit); a callback
error stops with cursor `dR`, otherwise continue with `stC`. -/
def finishOp (cv : Canvas) (u : Bool) (tr : Trace) (es : List Event)
    (dR : List ℕ) (stC : EState) : Trace × StepNext :=
  match emitSeq cv u tr es with
  | (tr1, some err) => (tr1, .stop (some err) dR)
  | (tr1, none) => (tr1, .cont stC)

/-- One iteration of the styling-mode `while` loop of
`iconvg_private_execute_bytecode` (decoder.c lines 338-494). -/
def stylingStep (env : Env) (cv : Canvas) (tr : Trace) (st : EState) :
    Trace × StepNext :=
  match st.d with
  | [] => (tr, .stop none [])
  | opcode :: d1 =>
    if opcode < 0x80 then
      -- sel[opcode >> 6] = opcode & 0x3F
      (tr, .cont (if opcode / 64 = 0 then { st with sel0 := opcode % 64, d := d1 }
                  else { st with sel1 := opcode % 64, d := d1 }))
    else if opcode < 0x88 then  -- Set CREG[etc]; 1 byte color.
      match d1 with
      | p0 :: d2 =>
        let c := env.setOneByteColor st.customPalette st.creg p0
        (tr, .cont { st with creg := st.creg.set (regIndex st.sel0 opcode) c,
                             sel0 := selBump st.sel0 opcode, d := d2 })
      | _ => (tr, .stop (some .badColor) d1)
    else if opcode < 0x90 then  -- Set CREG[etc]; 2 byte color.
      match d1 with
      | p0 :: p1 :: d2 =>
        let c : Color := ⟨0x11 * (p0 / 16), 0x11 * (p0 % 16),
                          0x11 * (p1 / 16), 0x11 * (p1 % 16)⟩
        (tr, .cont { st with creg := st.creg.set (regIndex st.sel0 opcode) c,
                             sel0 := selBump st.sel0 opcode, d := d2 })
      | _ => (tr, .stop (some .badColor) d1)
    else if opcode < 0x98 then  -- Set CREG[etc]; 3 byte (direct) color.
      match d1 with
      | p0 :: p1 :: p2 :: d2 =>
        let c : Color := ⟨p0, p1, p2, 0xFF⟩
        (tr, .cont { st with creg := st.creg.set (regIndex st.sel0 opcode) c,
                             sel0 := selBump st.sel0 opcode, d := d2 })
      | _ => (tr, .stop (some .badColor) d1)
    else if opcode < 0xA0 then  -- Set CREG[etc]; 4 byte color.
      match d1 with
      | p0 :: p1 :: p2 :: p3 :: d2 =>
        let c : Color := ⟨p0, p1, p2, p3⟩
        (tr, .cont { st with creg := st.creg.set (regIndex st.sel0 opcode) c,
                             sel0 := selBump st.sel0 opcode, d := d2 })
      | _ => (tr, .stop (some .badColor) d1)
    else if opcode < 0xA8 then  -- Set CREG[etc]; 3 byte (indirect) color.
      match d1 with
      | p0 :: p1 :: p2 :: d2 =>
        let pc := env.setOneByteColor st.customPalette st.creg p1
        let qc := env.setOneByteColor st.customPalette st.creg p2
        let qBlend := p0
        let pBlend := 255 - p0
        let c : Color := ⟨(pBlend * pc.r + qBlend * qc.r + 128) / 255 % 256,
                          (pBlend * pc.g + qBlend * qc.g + 128) / 255 % 256,
                          (pBlend * pc.b + qBlend * qc.b + 128) / 255 % 256,
                          (pBlend * pc.a + qBlend * qc.a + 128) / 255 % 256⟩
        (tr, .cont { st with creg := st.creg.set (regIndex st.sel0 opcode) c,
                             sel0 := selBump st.sel0 opcode, d := d2 })
      | _ => (tr, .stop (some .badColor) d1)
    else if opcode < 0xB0 then  -- Set NREG[etc]; real number.
      match decodeRealNumber d1 with
      | some (num, d2) =>
        (tr, .cont { st with nreg := st.nreg.set (regIndex st.sel1 opcode) num,
                             sel1 := selBump st.sel1 opcode, d := d2 })
      | none => (tr, .stop (some .badNumber) d1)
    else if opcode < 0xB8 then  -- Set NREG[etc]; coordinate number.
      match decodeCoordinateNumber d1 with
      | some (num, d2) =>
        (tr, .cont { st with nreg := st.nreg.set (regIndex st.sel1 opcode) num,
                             sel1 := selBump st.sel1 opcode, d := d2 })
      | none => (tr, .stop (some .badCoordinate) d1)
    else if opcode < 0xC0 then  -- Set NREG[etc]; zero-to-one number.
      match decodeZeroToOneNumber d1 with
      | some (num, d2) =>
        (tr, .cont { st with nreg := st.nreg.set (regIndex st.sel1 opcode) num,
                             sel1 := selBump st.sel1 opcode, d := d2 })
      | none => (tr, .stop (some .badNumber) d1)
    else if opcode < 0xC7 then  -- Switch to the drawing mode.
      let paint := (st.creg.getD (regIndex st.sel0 opcode) ⟨0, 0, 0, 0⟩)
      if env.paintInvalid paint then
        (tr, .stop (some .invalidPaintType) d1)
      else
        match decodeCoordinateNumber d1 with
        | none => (tr, .stop (some .badCoordinate) d1)
        | some (cx, d2) =>
          match decodeCoordinateNumber d2 with
          | none => (tr, .stop (some .badCoordinate) d2)
          | some (cy, d3) =>
            let h := heightF64 st
            let gate := FV.le st.lod0 h && FV.lt h st.lod1
            let st1 := { st with paintRgba := paint, curUser := gate,
                                 currX := cx, currY := cy, d := d3 }
            finishOp cv gate tr
              [.beginDrawing, .beginPath (txX st1 cx) (txY st1 cy)] d3
              { st1 with x1 := cx, y1 := cy, mode := .drawing }
    else if opcode < 0xC8 then  -- Set Level of Detail bounds.
      match decodeRealNumber d1 with
      | none => (tr, .stop (some .badNumber) d1)
      | some (l0, d2) =>
        match decodeRealNumber d2 with
        | none => (tr, .stop (some .badNumber) d2)
        | some (l1, d3) =>
          (tr, .cont { st with lod0 := l0, lod1 := l1, d := d3 })
    else
      (tr, .stop (some .badStylingOpcode) d1)

/-! ### Drawing mode

Each `do...` helper below is one iteration of the `for (reps ...)` loop of
the corresponding drawing opcode; `repLoop` runs it `reps + 1` times. -/

/-- Run one drawing-op iteration `n` times, short-circuiting on stop. -/
def repLoop (f : Trace → EState → Trace × StepNext) :
    ℕ → Trace → EState → Trace × StepNext
  | 0, tr, st => (tr, .cont st)
  | n + 1, tr, st =>
    match f tr st with
    | (tr1, .cont st1) => repLoop f n tr1 st1
    | (tr1, .stop res dRem) => (tr1, .stop res dRem)

/-- One 'L' (absolute line_to) iteration. -/
def doLineAbs (cv : Canvas) (tr : Trace) (st : EState) : Trace × StepNext :=
  match decodeCoordinateNumber st.d with
  | none => (tr, .stop (some .badCoordinate) st.d)
  | some (cx, d1) =>
    match decodeCoordinateNumber d1 with
    | none => (tr, .stop (some .badCoordinate) d1)
    | some (cy, d2) =>
      let st1 := { st with currX := cx, currY := cy, d := d2 }
      finishOp cv st.curUser tr [.pathLineTo (txX st1 cx) (txY st1 cy)] d2
        { st1 with x1 := cx, y1 := cy }

/-- One 'l' (relative line_to) iteration. -/
def doLineRel (cv : Canvas) (tr : Trace) (st : EState) : Trace × StepNext :=
  match decodeCoordinateNumber st.d with
  | none => (tr, .stop (some .badCoordinate) st.d)
  | some (dx, d1) =>
    match decodeCoordinateNumber d1 with
    | none => (tr, .stop (some .badCoordinate) d1)
    | some (dy, d2) =>
      let cx := f32Add st.currX dx
      let cy := f32Add st.currY dy
      let st1 := { st with currX := cx, currY := cy, d := d2 }
      finishOp cv st.curUser tr [.pathLineTo (txX st1 cx) (txY st1 cy)] d2
        { st1 with x1 := cx, y1 := cy }

/-- One 'T' (absolute smooth quad_to) iteration: the control point is the
implicit `(x1, y1)`. -/
def doQuadSmoothAbs (cv : Canvas) (tr : Trace) (st : EState) : Trace × StepNext :=
  match decodeCoordinateNumber st.d with
  | none => (tr, .stop (some .badCoordinate) st.d)
  | some (ex, d1) =>
    match decodeCoordinateNumber d1 with
    | none => (tr, .stop (some .badCoordinate) d1)
    | some (ey, d2) =>
      let st1 := { st with x2 := ex, y2 := ey, d := d2 }
      finishOp cv st.curUser tr
        [.pathQuadTo (txX st1 st.x1) (txY st1 st.y1) (txX st1 ex) (txY st1 ey)] d2
        { st1 with currX := ex, currY := ey,
                   x1 := f32Sub (f32Mul (.fin 2) ex) st.x1,
                   y1 := f32Sub (f32Mul (.fin 2) ey) st.y1 }

/-- One 't' (relative smooth quad_to) iteration. -/
def doQuadSmoothRel (cv : Canvas) (tr : Trace) (st : EState) : Trace × StepNext :=
  match decodeCoordinateNumber st.d with
  | none => (tr, .stop (some .badCoordinate) st.d)
  | some (dx, d1) =>
    match decodeCoordinateNumber d1 with
    | none => (tr, .stop (some .badCoordinate) d1)
    | some (dy, d2) =>
      let ex := f32Add dx st.currX
      let ey := f32Add dy st.currY
      let st1 := { st with x2 := ex, y2 := ey, d := d2 }
      finishOp cv st.curUser tr
        [.pathQuadTo (txX st1 st.x1) (txY st1 st.y1) (txX st1 ex) (txY st1 ey)] d2
        { st1 with currX := ex, currY := ey,
                   x1 := f32Sub (f32Mul (.fin 2) ex) st.x1,
                   y1 := f32Sub (f32Mul (.fin 2) ey) st.y1 }

/-- One 'Q' (absolute quad_to) iteration. -/
def doQuadAbs (cv : Canvas) (tr : Trace) (st : EState) : Trace × StepNext :=
  match decodeCoordinateNumber st.d with
  | none => (tr, .stop (some .badCoordinate) st.d)
  | some (cx, d1) =>
    match decodeCoordinateNumber d1 with
    | none => (tr, .stop (some .badCoordinate) d1)
    | some (cy, d2) =>
      match decodeCoordinateNumber d2 with
      | none => (tr, .stop (some .badCoordinate) d2)
      | some (ex, d3) =>
        match decodeCoordinateNumber d3 with
        | none => (tr, .stop (some .badCoordinate) d3)
        | some (ey, d4) =>
          let st1 := { st with x1 := cx, y1 := cy, x2 := ex, y2 := ey, d := d4 }
          finishOp cv st.curUser tr
            [.pathQuadTo (txX st1 cx) (txY st1 cy) (txX st1 ex) (txY st1 ey)] d4
            { st1 with currX := ex, currY := ey,
                       x1 := f32Sub (f32Mul (.fin 2) ex) cx,
                       y1 := f32Sub (f32Mul (.fin 2) ey) cy }

/-- One 'q' (relative quad_to) iteration. -/
def doQuadRel (cv : Canvas) (tr : Trace) (st : EState) : Trace × StepNext :=
  match decodeCoordinateNumber st.d with
  | none => (tr, .stop (some .badCoordinate) st.d)
  | some (dcx, d1) =>
    match decodeCoordinateNumber d1 with
    | none => (tr, .stop (some .badCoordinate) d1)
    | some (dcy, d2) =>
      match decodeCoordinateNumber d2 with
      | none => (tr, .stop (some .badCoordinate) d2)
      | some (dex, d3) =>
        match decodeCoordinateNumber d3 with
        | none => (tr, .stop (some .badCoordinate) d3)
        | some (dey, d4) =>
          let cx := f32Add dcx st.currX
          let cy := f32Add dcy st.currY
          let ex := f32Add dex st.currX
          let ey := f32Add dey st.currY
          let st1 := { st with x1 := cx, y1 := cy, x2 := ex, y2 := ey, d := d4 }
          finishOp cv st.curUser tr
            [.pathQuadTo (txX st1 cx) (txY st1 cy) (txX st1 ex) (txY st1 ey)] d4
            { st1 with currX := ex, currY := ey,
                       x1 := f32Sub (f32Mul (.fin 2) ex) cx,
                       y1 := f32Sub (f32Mul (.fin 2) ey) cy }

/-- One 'S' (absolute smooth cube_to) iteration: the first control point is
the implicit `(x1, y1)`. -/
def doCubeSmoothAbs (cv : Canvas) (tr : Trace) (st : EState) : Trace × StepNext :=
  match decodeCoordinateNumber st.d with
  | none => (tr, .stop (some .badCoordinate) st.d)
  | some (c2x, d1) =>
    match decodeCoordinateNumber d1 with
    | none => (tr, .stop (some .badCoordinate) d1)
    | some (c2y, d2) =>
      match decodeCoordinateNumber d2 with
      | none => (tr, .stop (some .badCoordinate) d2)
      | some (ex, d3) =>
        match decodeCoordinateNumber d3 with
        | none => (tr, .stop (some .badCoordinate) d3)
        | some (ey, d4) =>
          let st1 := { st with x2 := c2x, y2 := c2y, x3 := ex, y3 := ey, d := d4 }
          finishOp cv st.curUser tr
            [.pathCubeTo (txX st1 st.x1) (txY st1 st.y1) (txX st1 c2x) (txY st1 c2y)
               (txX st1 ex) (txY st1 ey)] d4
            { st1 with currX := ex, currY := ey,
                       x1 := f32Sub (f32Mul (.fin 2) ex) c2x,
                       y1 := f32Sub (f32Mul (.fin 2) ey) c2y }

/-- One 's' (relative smooth cube_to) iteration. -/
def doCubeSmoothRel (cv : Canvas) (tr : Trace) (st : EState) : Trace × StepNext :=
  match decodeCoordinateNumber st.d with
  | none => (tr, .stop (some .badCoordinate) st.d)
  | some (dc2x, d1) =>
    match decodeCoordinateNumber d1 with
    | none => (tr, .stop (some .badCoordinate) d1)
    | some (dc2y, d2) =>
      match decodeCoordinateNumber d2 with
      | none => (tr, .stop (some .badCoordinate) d2)
      | some (dex, d3) =>
        match decodeCoordinateNumber d3 with
        | none => (tr, .stop (some .badCoordinate) d3)
        | some (dey, d4) =>
          let c2x := f32Add dc2x st.currX
          let c2y := f32Add dc2y st.currY
          let ex := f32Add dex st.currX
          let ey := f32Add dey st.currY
          let st1 := { st with x2 := c2x, y2 := c2y, x3 := ex, y3 := ey, d := d4 }
          finishOp cv st.curUser tr
            [.pathCubeTo (txX st1 st.x1) (txY st1 st.y1) (txX st1 c2x) (txY st1 c2y)
               (txX st1 ex) (txY st1 ey)] d4
            { st1 with currX := ex, currY := ey,
                       x1 := f32Sub (f32Mul (.fin 2) ex) c2x,
                       y1 := f32Sub (f32Mul (.fin 2) ey) c2y }

/-- One 'C' (absolute cube_to) iteration. -/
def doCubeAbs (cv : Canvas) (tr : Trace) (st : EState) : Trace × StepNext :=
  match decodeCoordinateNumber st.d with
  | none => (tr, .stop (some .badCoordinate) st.d)
  | some (c1x, d1) =>
    match decodeCoordinateNumber d1 with
    | none => (tr, .stop (some .badCoordinate) d1)
    | some (c1y, d2) =>
      match decodeCoordinateNumber d2 with
      | none => (tr, .stop (some .badCoordinate) d2)
      | some (c2x, d3) =>
        match decodeCoordinateNumber d3 with
        | none => (tr, .stop (some .badCoordinate) d3)
        | some (c2y, d4) =>
          match decodeCoordinateNumber d4 with
          | none => (tr, .stop (some .badCoordinate) d4)
          | some (ex, d5) =>
            match decodeCoordinateNumber d5 with
            | none => (tr, .stop (some .badCoordinate) d5)
            | some (ey, d6) =>
              let st1 := { st with x1 := c1x, y1 := c1y, x2 := c2x, y2 := c2y,
                                   x3 := ex, y3 := ey, d := d6 }
              finishOp cv st.curUser tr
                [.pathCubeTo (txX st1 c1x) (txY st1 c1y) (txX st1 c2x) (txY st1 c2y)
                   (txX st1 ex) (txY st1 ey)] d6
                { st1 with currX := ex, currY := ey,
                           x1 := f32Sub (f32Mul (.fin 2) ex) c2x,
                           y1 := f32Sub (f32Mul (.fin 2) ey) c2y }

/-- One 'c' (relative cube_to) iteration. -/
def doCubeRel (cv : Canvas) (tr : Trace) (st : EState) : Trace × StepNext :=
  match decodeCoordinateNumber st.d with
  | none => (tr, .stop (some .badCoordinate) st.d)
  | some (dc1x, d1) =>
    match decodeCoordinateNumber d1 with
    | none => (tr, .stop (some .badCoordinate) d1)
    | some (dc1y, d2) =>
      match decodeCoordinateNumber d2 with
      | none => (tr, .stop (some .badCoordinate) d2)
      | some (dc2x, d3) =>
        match decodeCoordinateNumber d3 with
        | none => (tr, .stop (some .badCoordinate) d3)
        | some (dc2y, d4) =>
          match decodeCoordinateNumber d4 with
          | none => (tr, .stop (some .badCoordinate) d4)
          | some (dex, d5) =>
            match decodeCoordinateNumber d5 with
            | none => (tr, .stop (some .badCoordinate) d5)
            | some (dey, d6) =>
              let c1x := f32Add dc1x st.currX
              let c1y := f32Add dc1y st.currY
              let c2x := f32Add dc2x st.currX
              let c2y := f32Add dc2y st.currY
              let ex := f32Add dex st.currX
              let ey := f32Add dey st.currY
              let st1 := { st with x1 := c1x, y1 := c1y, x2 := c2x, y2 := c2y,
                                   x3 := ex, y3 := ey, d := d6 }
              finishOp cv st.curUser tr
                [.pathCubeTo (txX st1 c1x) (txY st1 c1y) (txX st1 c2x) (txY st1 c2y)
                   (txX st1 ex) (txY st1 ey)] d6
                { st1 with currX := ex, currY := ey,
                           x1 := f32Sub (f32Mul (.fin 2) ex) c2x,
                           y1 := f32Sub (f32Mul (.fin 2) ey) c2y }

/-- One 'A' (absolute arc_to) iteration. -/
def doArcAbs (env : Env) (cv : Canvas) (tr : Trace) (st : EState) :
    Trace × StepNext :=
  match decodeCoordinateNumber st.d with
  | none => (tr, .stop (some .badCoordinate) st.d)
  | some (rx, d1) =>
    match decodeCoordinateNumber d1 with
    | none => (tr, .stop (some .badCoordinate) d1)
    | some (ry, d2) =>
      match decodeZeroToOneNumber d2 with
      | none => (tr, .stop (some .badCoordinate) d2)
      | some (rot, d3) =>
        match decodeNaturalNumber d3 with
        | none => (tr, .stop (some .badCoordinate) d3)
        | some (fl, d4) =>
          match decodeCoordinateNumber d4 with
          | none => (tr, .stop (some .badCoordinate) d4)
          | some (cx, d5) =>
            match decodeCoordinateNumber d5 with
            | none => (tr, .stop (some .badCoordinate) d5)
            | some (cy, d6) =>
              let cubes := env.arcTo
                ⟨st.scaleX, st.biasX, st.scaleY, st.biasY, st.currX, st.currY,
                 rx, ry, rot, fl % 2 = 1, fl / 2 % 2 = 1, cx, cy⟩
              let st1 := { st with currX := cx, currY := cy, x2 := rot,
                                   flagsReg := fl, d := d6 }
              finishOp cv st.curUser tr
                (cubes.map fun c => .pathCubeTo c.x1 c.y1 c.x2 c.y2 c.x3 c.y3) d6
                { st1 with x1 := cx, y1 := cy }

/-- One 'a' (relative arc_to) iteration. -/
def doArcRel (env : Env) (cv : Canvas) (tr : Trace) (st : EState) :
    Trace × StepNext :=
  match decodeCoordinateNumber st.d with
  | none => (tr, .stop (some .badCoordinate) st.d)
  | some (rx, d1) =>
    match decodeCoordinateNumber d1 with
    | none => (tr, .stop (some .badCoordinate) d1)
    | some (ry, d2) =>
      match decodeZeroToOneNumber d2 with
      | none => (tr, .stop (some .badCoordinate) d2)
      | some (rot, d3) =>
        match decodeNaturalNumber d3 with
        | none => (tr, .stop (some .badCoordinate) d3)
        | some (fl, d4) =>
          match decodeCoordinateNumber d4 with
          | none => (tr, .stop (some .badCoordinate) d4)
          | some (dx, d5) =>
            match decodeCoordinateNumber d5 with
            | none => (tr, .stop (some .badCoordinate) d5)
            | some (dy, d6) =>
              let cx := f32Add st.currX dx
              let cy := f32Add st.currY dy
              let cubes := env.arcTo
                ⟨st.scaleX, st.biasX, st.scaleY, st.biasY, st.currX, st.currY,
                 rx, ry, rot, fl % 2 = 1, fl / 2 % 2 = 1, cx, cy⟩
              let st1 := { st with currX := cx, currY := cy, x2 := rot, x3 := dx,
                                   y3 := dy, flagsReg := fl, d := d6 }
              finishOp cv st.curUser tr
                (cubes.map fun c => .pathCubeTo c.x1 c.y1 c.x2 c.y2 c.x3 c.y3) d6
                { st1 with x1 := cx, y1 := cy }

/-- One iteration of the drawing-mode `while` loop of
`iconvg_private_execute_bytecode` (decoder.c lines 496-882). -/
def drawingStep (env : Env) (cv : Canvas) (tr : Trace) (st : EState) :
    Trace × StepNext :=
  match st.d with
  | [] => (tr, .stop (some .badPathUnfinished) [])
  | opcode :: d1 =>
    match opcode / 16 with
    | 0 | 1 => repLoop (doLineAbs cv) (opcode % 32 + 1) tr { st with d := d1 }
    | 2 | 3 => repLoop (doLineRel cv) (opcode % 32 + 1) tr { st with d := d1 }
    | 4 => repLoop (doQuadSmoothAbs cv) (opcode % 16 + 1) tr { st with d := d1 }
    | 5 => repLoop (doQuadSmoothRel cv) (opcode % 16 + 1) tr { st with d := d1 }
    | 6 => repLoop (doQuadAbs cv) (opcode % 16 + 1) tr { st with d := d1 }
    | 7 => repLoop (doQuadRel cv) (opcode % 16 + 1) tr { st with d := d1 }
    | 8 => repLoop (doCubeSmoothAbs cv) (opcode % 16 + 1) tr { st with d := d1 }
    | 9 => repLoop (doCubeSmoothRel cv) (opcode % 16 + 1) tr { st with d := d1 }
    | 10 => repLoop (doCubeAbs cv) (opcode % 16 + 1) tr { st with d := d1 }
    | 11 => repLoop (doCubeRel cv) (opcode % 16 + 1) tr { st with d := d1 }
    | 12 => repLoop (doArcAbs env cv) (opcode % 16 + 1) tr { st with d := d1 }
    | 13 => repLoop (doArcRel env cv) (opcode % 16 + 1) tr { st with d := d1 }
    | _ =>
      match opcode with
      | 0xE1 =>  -- 'z': close_path.
        finishOp cv st.curUser tr [.endPath, .endDrawing st.paintRgba] d1
          { st with d := d1, mode := .styling }
      | 0xE2 =>  -- 'z; M': close_path; absolute move_to.
        match emitSeq cv st.curUser tr [.endPath] with
        | (tr1, some err) => (tr1, .stop (some err) d1)
        | (tr1, none) =>
          match decodeCoordinateNumber d1 with
          | none => (tr1, .stop (some .badCoordinate) d1)
          | some (cx, d2) =>
            match decodeCoordinateNumber d2 with
            | none => (tr1, .stop (some .badCoordinate) d2)
            | some (cy, d3) =>
              let st2 := { st with currX := cx, currY := cy, d := d3 }
              finishOp cv st.curUser tr1 [.beginPath (txX st2 cx) (txY st2 cy)] d3
                { st2 with x1 := cx, y1 := cy }
      | 0xE3 =>  -- 'z; m': close_path; relative move_to.
        match emitSeq cv st.curUser tr [.endPath] with
        | (tr1, some err) => (tr1, .stop (some err) d1)
        | (tr1, none) =>
          match decodeCoordinateNumber d1 with
          | none => (tr1, .stop (some .badCoordinate) d1)
          | some (dx, d2) =>
            match decodeCoordinateNumber d2 with
            | none => (tr1, .stop (some .badCoordinate) d2)
            | some (dy, d3) =>
              let cx := f32Add st.currX dx
              let cy := f32Add st.currY dy
              let st2 := { st with currX := cx, currY := cy, d := d3 }
              finishOp cv st.curUser tr1 [.beginPath (txX st2 cx) (txY st2 cy)] d3
                { st2 with x1 := cx, y1 := cy }
      | 0xE6 =>  -- 'H': absolute horizontal line_to.
        match decodeCoordinateNumber d1 with
        | none => (tr, .stop (some .badCoordinate) d1)
        | some (cx, d2) =>
          let st2 := { st with currX := cx, d := d2 }
          finishOp cv st.curUser tr [.pathLineTo (txX st2 cx) (txY st2 st.currY)] d2
            { st2 with x1 := cx, y1 := st.currY }
      | 0xE7 =>  -- 'h': relative horizontal line_to.
        match decodeCoordinateNumber d1 with
        | none => (tr, .stop (some .badCoordinate) d1)
        | some (dx, d2) =>
          let cx := f32Add st.currX dx
          let st2 := { st with currX := cx, d := d2 }
          finishOp cv st.curUser tr [.pathLineTo (txX st2 cx) (txY st2 st.currY)] d2
            { st2 with x1 := cx, y1 := st.currY }
      | 0xE8 =>  -- 'V': absolute vertical line_to.
        match decodeCoordinateNumber d1 with
        | none => (tr, .stop (some .badCoordinate) d1)
        | some (cy, d2) =>
          let st2 := { st with currY := cy, d := d2 }
          finishOp cv st.curUser tr [.pathLineTo (txX st2 st.currX) (txY st2 cy)] d2
            { st2 with x1 := st.currX, y1 := cy }
      | 0xE9 =>  -- 'v': relative vertical line_to.
        match decodeCoordinateNumber d1 with
        | none => (tr, .stop (some .badCoordinate) d1)
        | some (dy, d2) =>
          let cy := f32Add st.currY dy
          let st2 := { st with currY := cy, d := d2 }
          finishOp cv st.curUser tr [.pathLineTo (txX st2 st.currX) (txY st2 cy)] d2
            { st2 with x1 := st.currX, y1 := cy }
      | _ => (tr, .stop (some .badDrawingOpcode) d1)

/-- One iteration of whichever mode the interpreter is in. -/
def execStep (env : Env) (cv : Canvas) (tr : Trace) (st : EState) :
    Trace × StepNext :=
  match st.mode with
  | .styling => stylingStep env cv tr st
  | .drawing => drawingStep env cv tr st

/-- The interpreter loop. Every continuing step consumes at least the
opcode byte, so fuel equal to `d.length + 1` never runs out; exhaustion
returns the decoder.c dead-code result
`iconvg_private_internal_error_unreachable`. -/
def execLoop (env : Env) (cv : Canvas) :
    ℕ → Trace → EState → Option Err × Trace × List ℕ
  | 0, tr, st => (some .internalUnreachable, tr, st.d)
  | fuel + 1, tr, st =>
    match execStep env cv tr st with
    | (tr1, .cont st1) => execLoop env cv fuel tr1 st1
    | (tr1, .stop res dRem) => (res, tr1, dRem)

/-- Modelled from the spec: `iconvg_rectangle_f32__width_f64` is not under
`src/`; per the spec (and the older single-file float variant) it is
`max_x - min_x` when `max_x > min_x`, else zero, computed in `double`. -/
def rectWidthF64 (r : Rect) : FV :=
  if FV.lt r.minX r.maxX then f64Sub r.maxX r.minX else .fin 0

/-- Modelled from the spec: `iconvg_rectangle_f32__height_f64`
(see `rectWidthF64`). -/
def rectHeightF64 (r : Rect) : FV :=
  if FV.lt r.minY r.maxY then f64Sub r.maxY r.minY else .fin 0

/-- The initial interpreter state of `iconvg_private_execute_bytecode`:
source-to-destination transform from the destination rectangle and the
viewbox (identity unless all four extents are strictly positive), locals
zeroed, selectors zeroed, LOD bounds `(0, +inf)`, starting in styling mode
with the no-op canvas current. -/
def initExecState (r : Rect) (d : List ℕ) (viewbox : Rect) (creg : Palette)
    (nreg : List FV) (customPalette : Palette) (paint0 : Color) (h : ℤ) : EState :=
  let rw := rectWidthF64 r
  let rh := rectHeightF64 r
  let vw := rectWidthF64 viewbox
  let vh := rectHeightF64 viewbox
  let ok := FV.lt (.fin 0) rw && FV.lt (.fin 0) rh &&
            FV.lt (.fin 0) vw && FV.lt (.fin 0) vh
  let sx := if ok then f64Div rw vw else .fin 1
  let sy := if ok then f64Div rh vh else .fin 1
  { d := d, mode := .styling, curUser := false,
    currX := .fin 0, currY := .fin 0, x1 := .fin 0, y1 := .fin 0,
    x2 := .fin 0, y2 := .fin 0, x3 := .fin 0, y3 := .fin 0,
    flagsReg := 0, sel0 := 0, sel1 := 0,
    lod0 := .fin 0, lod1 := .inf false,
    creg := creg, nreg := nreg, customPalette := customPalette,
    paintRgba := paint0, heightInPixels := h,
    scaleX := sx,
    biasX := if ok then f64Sub r.minX (f64Mul viewbox.minX sx) else .fin 0,
    scaleY := sy,
    biasY := if ok then f64Sub r.minY (f64Mul viewbox.minY sy) else .fin 0 }

/-- `iconvg_private_execute_bytecode`. -/
def executeBytecode (env : Env) (cv : Canvas) (r : Rect) (tr : Trace)
    (d : List ℕ) (viewbox : Rect) (creg : Palette) (nreg : List FV)
    (customPalette : Palette) (paint0 : Color) (h : ℤ) :
    Option Err × Trace × List ℕ :=
  execLoop env cv (d.length + 1) tr
    (initExecState r d viewbox creg nreg customPalette paint0 h)

/-! ## `iconvg_private_decode` and `iconvg_decode` -/

/-- `iconvg_decode_options`: a `none` field means a NULL/absent option (a
NULL `options` pointer is both fields `none`). -/
structure DecodeOptions where
  heightInPixels : Option ℤ
  palette : Option Palette

/-- `(int64_t)` conversion of a nonnegative `double` (truncation toward
zero); only reached for finite nonnegative values. -/
def fvTruncToInt : FV → ℤ
  | .fin q => q.num / (q.den : ℤ)
  | _ => 0

/-- The metadata-chunk loop of `iconvg_private_decode` (decoder.c lines
977-1016): like the viewbox pre-pass but id 1 parses the suggested palette
and unknown ids are errors. Returns the error (if any), the viewbox and
custom-palette state, and the outer cursor. -/
def metadataLoop (env : Env) : ℕ → ℤ → Rect → Palette → List ℕ →
    Option Err × Rect × Palette × List ℕ
  | 0, _, vb, pal, d => (none, vb, pal, d)
  | n + 1, prevId, vb, pal, d =>
    match decodeNaturalNumber d with
    | none => (some .badMetadata, vb, pal, d)
    | some (chunkLength, d1) =>
      if d1.length < chunkLength then (some .badMetadata, vb, pal, d1)
      else
        match decodeNaturalNumber (d1.take chunkLength) with
        | none => (some .badMetadata, vb, pal, d1)
        | some (mid, chunkRest) =>
          if prevId ≥ (mid : ℤ) then (some .badMetadataIdOrder, vb, pal, d1)
          else if mid = 0 then
            let (ok, vb1, rem) := decodeMetadataViewbox chunkRest vb
            if ok = false ∨ rem ≠ [] then (some .badMetadataViewbox, vb1, pal, d1)
            else metadataLoop env n (mid : ℤ) vb1 pal (d1.drop chunkLength)
          else if mid = 1 then
            let (ok, pal1, rem) := decodeMetadataSuggestedPalette env.oneByteColors chunkRest pal
            if ok = false ∨ rem ≠ [] then (some .badMetadataSuggestedPalette, vb, pal1, d1)
            else metadataLoop env n (mid : ℤ) vb pal1 (d1.drop chunkLength)
          else (some .badMetadata, vb, pal, d1)

/-! `iconvg_private_decode` (decoder.c lines 944-1039) is split below into
`effectiveHeight`, `effectivePalette` and `privateDecode`; the tuple result
carries the function result, the trace, and the final cursor (the caller
reads `d.len`). -/
/-- The effective `state.height_in_pixels` (decoder.c lines 951-963): the
option value when present, else the destination rectangle's height
truncated to `int64_t`, capped at `0x100000`. -/
def effectiveHeight (options : DecodeOptions) (r : Rect) : ℤ :=
  match options.heightInPixels with
  | some v => v
  | none =>
    if FV.le (rectHeightF64 r) (.fin 1048576) then fvTruncToInt (rectHeightF64 r)
    else 1048576

/-- The custom palette after the optional caller override (decoder.c lines
1022-1025). -/
def effectivePalette (options : DecodeOptions) (pal : Palette) : Palette :=
  match options.palette with
  | some p => p
  | none => pal

/-- `iconvg_private_decode` (continued): the body after state setup. -/
def privateDecode (env : Env) (cv : Canvas) (r : Rect) (tr : Trace)
    (d : List ℕ) (options : DecodeOptions) : Option Err × Trace × List ℕ :=
  match decodeMagicIdentifier d with
  | none => (some .badMagicIdentifier, tr, d)
  | some d1 =>
    match decodeNaturalNumber d1 with
    | none => (some .badMetadata, tr, d1)
    | some (numChunks, d2) =>
      match metadataLoop env numChunks (-1) defaultViewbox defaultPalette d2 with
      | (some e, _, _, d3) => (some e, tr, d3)
      | (none, vb, pal, d3) =>
        match emitSeq cv true tr
          [.onMetadataViewbox vb, .onMetadataSuggestedPalette pal] with
        | (tr1, some err) => (some err, tr1, d3)
        | (tr1, none) =>
          executeBytecode env cv r tr1 d3 vb (effectivePalette options pal)
            (List.replicate 64 (.fin 0)) (effectivePalette options pal)
            ⟨0, 0, 0, 0⟩ (effectiveHeight options r)

/-- `iconvg_decode` (decoder.c lines 1041-1071). A `none` canvas models a
NULL `dst_canvas` or one whose vtable pointer is NULL; the broken canvas is
substituted. The vtable-size check precedes everything else; then
`begin_decode`, the decode body if it succeeded, and `end_decode` with the
funnelled error and the consumed/remaining byte counts. -/
def iconvgDecode (env : Env) (dstCanvas : Option Canvas) (dstRect : Rect)
    (src : List ℕ) (options : DecodeOptions) : Option Err × Trace :=
  let cv := dstCanvas.getD brokenCanvasNull
  if cv.sizeofOk = false then (some .unsupportedVtable, [])
  else
    let e0 : Event := .beginDecode dstRect
    let tr0 : Trace := [(true, e0)]
    let (errMsg, tr1, dRem) :=
      match cv.respond [] e0 with
      | some e => (some e, tr0, src)
      | none => privateDecode env cv dstRect tr0 src options
    let eEnd : Event := .endDecode errMsg (src.length - dRem.length) dRem.length
    (respondTo cv true tr1 eEnd, tr1 ++ [(true, eEnd)])

/-! ## Infrastructure lemmas -/

/-- `begin_decode` / `end_decode` events (emitted only by `iconvgDecode`
itself, never by the decode body). -/
def Event.isBookend : Event → Bool
  | .beginDecode _ => true
  | .endDecode _ _ _ => true
  | _ => false

theorem decodeNaturalNumber_length {d : List ℕ} {v : ℕ} {d1 : List ℕ}
    (h : decodeNaturalNumber d = some (v, d1)) : d1.length < d.length := by
  match d with
  | [] => simp [decodeNaturalNumber] at h
  | b :: rest =>
    simp only [decodeNaturalNumber] at h
    split_ifs at h with h1 h2
    · obtain ⟨rfl, rfl⟩ := Prod.mk.injEq .. ▸ Option.some.injEq .. ▸ h
      simp
    · match rest with
      | [] => simp at h
      | r1 :: rest2 =>
        obtain ⟨rfl, rfl⟩ := Prod.mk.injEq .. ▸ Option.some.injEq .. ▸ h
        simp
        omega
    · match rest with
      | [] => simp at h
      | [r1] => simp at h
      | [r1, r2] => simp at h
      | r1 :: r2 :: r3 :: rest4 =>
        obtain ⟨rfl, rfl⟩ := Prod.mk.injEq .. ▸ Option.some.injEq .. ▸ h
        simp
        omega

theorem decodeCoordinateNumber_length {d : List ℕ} {v : FV} {d1 : List ℕ}
    (h : decodeCoordinateNumber d = some (v, d1)) : d1.length < d.length := by
  match d with
  | [] => simp [decodeCoordinateNumber] at h
  | b :: rest =>
    simp only [decodeCoordinateNumber] at h
    split_ifs at h with h1 h2
    · obtain ⟨rfl, rfl⟩ := Prod.mk.injEq .. ▸ Option.some.injEq .. ▸ h
      simp
    · match rest with
      | [] => simp at h
      | r1 :: rest2 =>
        obtain ⟨rfl, rfl⟩ := Prod.mk.injEq .. ▸ Option.some.injEq .. ▸ h
        simp
        omega
    · match rest with
      | [] => simp at h
      | [r1] => simp at h
      | [r1, r2] => simp at h
      | r1 :: r2 :: r3 :: rest4 =>
        obtain ⟨rfl, rfl⟩ := Prod.mk.injEq .. ▸ Option.some.injEq .. ▸ h
        simp
        omega

theorem decodeRealNumber_length {d : List ℕ} {v : FV} {d1 : List ℕ}
    (h : decodeRealNumber d = some (v, d1)) : d1.length < d.length := by
  match d with
  | [] => simp [decodeRealNumber] at h
  | b :: rest =>
    simp only [decodeRealNumber] at h
    split_ifs at h with h1 h2
    · obtain ⟨rfl, rfl⟩ := Prod.mk.injEq .. ▸ Option.some.injEq .. ▸ h
      simp
    · match rest with
      | [] => simp at h
      | r1 :: rest2 =>
        obtain ⟨rfl, rfl⟩ := Prod.mk.injEq .. ▸ Option.some.injEq .. ▸ h
        simp
        omega
    · match rest with
      | [] => simp at h
      | [r1] => simp at h
      | [r1, r2] => simp at h
      | r1 :: r2 :: r3 :: rest4 =>
        obtain ⟨rfl, rfl⟩ := Prod.mk.injEq .. ▸ Option.some.injEq .. ▸ h
        simp
        omega

theorem decodeZeroToOneNumber_length {d : List ℕ} {v : FV} {d1 : List ℕ}
    (h : decodeZeroToOneNumber d = some (v, d1)) : d1.length < d.length := by
  match d with
  | [] => simp [decodeZeroToOneNumber] at h
  | b :: rest =>
    simp only [decodeZeroToOneNumber] at h
    split_ifs at h with h1 h2
    · obtain ⟨rfl, rfl⟩ := Prod.mk.injEq .. ▸ Option.some.injEq .. ▸ h
      simp
    · match rest with
      | [] => simp at h
      | r1 :: rest2 =>
        obtain ⟨rfl, rfl⟩ := Prod.mk.injEq .. ▸ Option.some.injEq .. ▸ h
        simp
        omega
    · match rest with
      | [] => simp at h
      | [r1] => simp at h
      | [r1, r2] => simp at h
      | r1 :: r2 :: r3 :: rest4 =>
        obtain ⟨rfl, rfl⟩ := Prod.mk.injEq .. ▸ Option.some.injEq .. ▸ h
        simp
        omega

/-- `emitSeq` appends exactly events drawn from its argument list, all
tagged with the canvas it was invoked on. -/
theorem emitSeq_ok (cv : Canvas) (u : Bool) :
    ∀ (es : List Event) (tr : Trace), ∃ mid,
      (emitSeq cv u tr es).1 = tr ++ mid ∧ ∀ te ∈ mid, te.1 = u ∧ te.2 ∈ es := by
  intro es
  induction es with
  | nil => intro tr; exact ⟨[], by simp [emitSeq], by simp⟩
  | cons e es ih =>
    intro tr
    unfold emitSeq
    cases h : respondTo cv u tr e with
    | some err => exact ⟨[(u, e)], by simp, by simp⟩
    | none =>
      obtain ⟨mid, hmid, hall⟩ := ih (tr ++ [(u, e)])
      refine ⟨(u, e) :: mid, by simpa using hmid, ?_⟩
      intro te hte
      rcases List.mem_cons.mp hte with rfl | hmem
      · simp
      · exact ⟨(hall te hmem).1, by simp [(hall te hmem).2]⟩

/-- On an all-successes run, `emitSeq` appends exactly its event list. -/
theorem emitSeq_none (cv : Canvas) (u : Bool) :
    ∀ (es : List Event) (tr tr1 : Trace), emitSeq cv u tr es = (tr1, none) →
      tr1 = tr ++ es.map (fun e => (u, e)) := by
  intro es
  induction es with
  | nil =>
    intro tr tr1 h
    simp only [emitSeq, Prod.mk.injEq] at h
    simp [← h.1]
  | cons e es ih =>
    intro tr tr1 h
    unfold emitSeq at h
    cases hr : respondTo cv u tr e with
    | some err => rw [hr] at h; simp at h
    | none =>
      rw [hr] at h
      have := ih (tr ++ [(u, e)]) tr1 h
      simpa [List.append_assoc] using this

/-- Trace extension whose new events are all tagged `u` and are never
decode bookends. -/
def midOK (u : Bool) (mid : Trace) : Prop :=
  ∀ te ∈ mid, te.1 = u ∧ te.2.isBookend = false

/-- Sanity of a drawing-mode step outcome: the trace grows only by events
on the current canvas, none of them `begin_decode`/`end_decode`; a
continuing state keeps the canvas choice and never grows the cursor; a
stopping cursor never grows either. -/
def drawStepOK (st : EState) (tr : Trace) (out : Trace × StepNext) : Prop :=
  (∃ mid, out.1 = tr ++ mid ∧ midOK st.curUser mid) ∧
  (∀ st1, out.2 = .cont st1 → st1.curUser = st.curUser ∧ st1.d.length ≤ st.d.length) ∧
  (∀ res dR, out.2 = .stop res dR → dR.length ≤ st.d.length)

theorem drawStepOK_stopTail {st : EState} {tr : Trace} {res : Option Err}
    {dR : List ℕ} (hle : dR.length ≤ st.d.length) :
    drawStepOK st tr (tr, .stop res dR) := by
  refine ⟨⟨[], by simp, by simp [midOK]⟩, ?_, ?_⟩
  · intro st1 hc; simp at hc
  · intro r dd hh
    simp only [StepNext.stop.injEq] at hh
    exact hh.2 ▸ hle

theorem finishOp_ok {cv : Canvas} {u : Bool} {tr : Trace} {es : List Event}
    {dR : List ℕ} {stC : EState} {out : Trace × StepNext}
    (h : finishOp cv u tr es dR stC = out)
    (hbk : ∀ e ∈ es, e.isBookend = false) :
    (∃ mid, out.1 = tr ++ mid ∧ midOK u mid) ∧
    (∀ st1, out.2 = .cont st1 → st1 = stC) ∧
    (∀ res dR1, out.2 = .stop res dR1 → dR1 = dR) := by
  obtain ⟨mid, hmid, hall⟩ := emitSeq_ok cv u es tr
  unfold finishOp at h
  cases he : emitSeq cv u tr es with
  | mk tr1 e =>
    rw [he] at h hmid
    have hok : midOK u mid := fun te hte => ⟨(hall te hte).1, hbk _ (hall te hte).2⟩
    cases e with
    | some err =>
      subst h
      refine ⟨⟨mid, hmid, hok⟩, ?_, ?_⟩
      · intro st1 hc; simp at hc
      · intro r dd hh
        simp only [StepNext.stop.injEq] at hh
        exact hh.2.symm
    | none =>
      subst h
      refine ⟨⟨mid, hmid, hok⟩, ?_, ?_⟩
      · intro st1 hc
        simp only [StepNext.cont.injEq] at hc
        exact hc.symm
      · intro r dd hh; simp at hh

theorem drawStepOK_of_finishOp {cv : Canvas} {tr : Trace} {st : EState}
    {es : List Event} {dR : List ℕ} {stC : EState} {out : Trace × StepNext}
    (h : finishOp cv st.curUser tr es dR stC = out)
    (hbk : ∀ e ∈ es, e.isBookend = false)
    (hcu : stC.curUser = st.curUser) (hdl : stC.d.length ≤ st.d.length)
    (hdR : dR.length ≤ st.d.length) :
    drawStepOK st tr out := by
  obtain ⟨hext, hcont, hstop⟩ := finishOp_ok h hbk
  exact ⟨hext, fun st1 hc => by rw [hcont st1 hc]; exact ⟨hcu, hdl⟩,
         fun r dd hh => by rw [hstop r dd hh]; exact hdR⟩

theorem drawStepOK_comp {st st1 : EState} {tr tr1 : Trace} {out : Trace × StepNext}
    (h1 : drawStepOK st tr (tr1, .cont st1)) (h2 : drawStepOK st1 tr1 out) :
    drawStepOK st tr out := by
  obtain ⟨⟨m1, he1, ho1⟩, hc1, -⟩ := h1
  obtain ⟨⟨m2, he2, ho2⟩, hc2, hs2⟩ := h2
  obtain ⟨hcu, hdl⟩ := hc1 st1 rfl
  simp only [] at he1
  refine ⟨⟨m1 ++ m2, by rw [he2, he1, List.append_assoc], ?_⟩, ?_, ?_⟩
  · intro te hte
    rcases List.mem_append.mp hte with hA | hB
    · exact ho1 te hA
    · exact ⟨by rw [(ho2 te hB).1, hcu], (ho2 te hB).2⟩
  · intro s hc
    exact ⟨(hc2 s hc).1.trans hcu, (hc2 s hc).2.trans hdl⟩
  · intro r dd hh
    exact (hs2 r dd hh).trans hdl

theorem doLineAbs_ok (cv : Canvas) (tr : Trace) (st : EState)
    (out : Trace × StepNext) (h : doLineAbs cv tr st = out) :
    drawStepOK st tr out := by
  unfold doLineAbs at h
  split at h
  · subst h; exact drawStepOK_stopTail le_rfl
  · rename_i cx d1 heq1
    have l1 := decodeCoordinateNumber_length heq1
    split at h
    · subst h; exact drawStepOK_stopTail (by omega)
    · rename_i cy d2 heq2
      have l2 := decodeCoordinateNumber_length heq2
      exact drawStepOK_of_finishOp h (by simp [Event.isBookend]) rfl
        (by show d2.length ≤ st.d.length; omega) (by omega)

theorem doLineRel_ok (cv : Canvas) (tr : Trace) (st : EState)
    (out : Trace × StepNext) (h : doLineRel cv tr st = out) :
    drawStepOK st tr out := by
  unfold doLineRel at h
  split at h
  · subst h; exact drawStepOK_stopTail le_rfl
  · rename_i dx d1 heq1
    have l1 := decodeCoordinateNumber_length heq1
    split at h
    · subst h; exact drawStepOK_stopTail (by omega)
    · rename_i dy d2 heq2
      have l2 := decodeCoordinateNumber_length heq2
      exact drawStepOK_of_finishOp h (by simp [Event.isBookend]) rfl
        (by show d2.length ≤ st.d.length; omega) (by omega)

theorem doQuadSmoothAbs_ok (cv : Canvas) (tr : Trace) (st : EState)
    (out : Trace × StepNext) (h : doQuadSmoothAbs cv tr st = out) :
    drawStepOK st tr out := by
  unfold doQuadSmoothAbs at h
  split at h
  · subst h; exact drawStepOK_stopTail le_rfl
  · rename_i ex d1 heq1
    have l1 := decodeCoordinateNumber_length heq1
    split at h
    · subst h; exact drawStepOK_stopTail (by omega)
    · rename_i ey d2 heq2
      have l2 := decodeCoordinateNumber_length heq2
      exact drawStepOK_of_finishOp h (by simp [Event.isBookend]) rfl
        (by show d2.length ≤ st.d.length; omega) (by omega)

theorem doQuadSmoothRel_ok (cv : Canvas) (tr : Trace) (st : EState)
    (out : Trace × StepNext) (h : doQuadSmoothRel cv tr st = out) :
    drawStepOK st tr out := by
  unfold doQuadSmoothRel at h
  split at h
  · subst h; exact drawStepOK_stopTail le_rfl
  · rename_i dx d1 heq1
    have l1 := decodeCoordinateNumber_length heq1
    split at h
    · subst h; exact drawStepOK_stopTail (by omega)
    · rename_i dy d2 heq2
      have l2 := decodeCoordinateNumber_length heq2
      exact drawStepOK_of_finishOp h (by simp [Event.isBookend]) rfl
        (by show d2.length ≤ st.d.length; omega) (by omega)

theorem doQuadAbs_ok (cv : Canvas) (tr : Trace) (st : EState)
    (out : Trace × StepNext) (h : doQuadAbs cv tr st = out) :
    drawStepOK st tr out := by
  unfold doQuadAbs at h
  split at h
  · subst h; exact drawStepOK_stopTail le_rfl
  · rename_i cx d1 heq1
    have l1 := decodeCoordinateNumber_length heq1
    split at h
    · subst h; exact drawStepOK_stopTail (by omega)
    · rename_i cy d2 heq2
      have l2 := decodeCoordinateNumber_length heq2
      split at h
      · subst h; exact drawStepOK_stopTail (by omega)
      · rename_i ex d3 heq3
        have l3 := decodeCoordinateNumber_length heq3
        split at h
        · subst h; exact drawStepOK_stopTail (by omega)
        · rename_i ey d4 heq4
          have l4 := decodeCoordinateNumber_length heq4
          exact drawStepOK_of_finishOp h (by simp [Event.isBookend]) rfl
            (by show d4.length ≤ st.d.length; omega) (by omega)

theorem doQuadRel_ok (cv : Canvas) (tr : Trace) (st : EState)
    (out : Trace × StepNext) (h : doQuadRel cv tr st = out) :
    drawStepOK st tr out := by
  unfold doQuadRel at h
  split at h
  · subst h; exact drawStepOK_stopTail le_rfl
  · rename_i dcx d1 heq1
    have l1 := decodeCoordinateNumber_length heq1
    split at h
    · subst h; exact drawStepOK_stopTail (by omega)
    · rename_i dcy d2 heq2
      have l2 := decodeCoordinateNumber_length heq2
      split at h
      · subst h; exact drawStepOK_stopTail (by omega)
      · rename_i dex d3 heq3
        have l3 := decodeCoordinateNumber_length heq3
        split at h
        · subst h; exact drawStepOK_stopTail (by omega)
        · rename_i dey d4 heq4
          have l4 := decodeCoordinateNumber_length heq4
          exact drawStepOK_of_finishOp h (by simp [Event.isBookend]) rfl
            (by show d4.length ≤ st.d.length; omega) (by omega)

theorem doCubeSmoothAbs_ok (cv : Canvas) (tr : Trace) (st : EState)
    (out : Trace × StepNext) (h : doCubeSmoothAbs cv tr st = out) :
    drawStepOK st tr out := by
  unfold doCubeSmoothAbs at h
  split at h
  · subst h; exact drawStepOK_stopTail le_rfl
  · rename_i c2x d1 heq1
    have l1 := decodeCoordinateNumber_length heq1
    split at h
    · subst h; exact drawStepOK_stopTail (by omega)
    · rename_i c2y d2 heq2
      have l2 := decodeCoordinateNumber_length heq2
      split at h
      · subst h; exact drawStepOK_stopTail (by omega)
      · rename_i ex d3 heq3
        have l3 := decodeCoordinateNumber_length heq3
        split at h
        · subst h; exact drawStepOK_stopTail (by omega)
        · rename_i ey d4 heq4
          have l4 := decodeCoordinateNumber_length heq4
          exact drawStepOK_of_finishOp h (by simp [Event.isBookend]) rfl
            (by show d4.length ≤ st.d.length; omega) (by omega)

theorem doCubeSmoothRel_ok (cv : Canvas) (tr : Trace) (st : EState)
    (out : Trace × StepNext) (h : doCubeSmoothRel cv tr st = out) :
    drawStepOK st tr out := by
  unfold doCubeSmoothRel at h
  split at h
  · subst h; exact drawStepOK_stopTail le_rfl
  · rename_i dc2x d1 heq1
    have l1 := decodeCoordinateNumber_length heq1
    split at h
    · subst h; exact drawStepOK_stopTail (by omega)
    · rename_i dc2y d2 heq2
      have l2 := decodeCoordinateNumber_length heq2
      split at h
      · subst h; exact drawStepOK_stopTail (by omega)
      · rename_i dex d3 heq3
        have l3 := decodeCoordinateNumber_length heq3
        split at h
        · subst h; exact drawStepOK_stopTail (by omega)
        · rename_i dey d4 heq4
          have l4 := decodeCoordinateNumber_length heq4
          exact drawStepOK_of_finishOp h (by simp [Event.isBookend]) rfl
            (by show d4.length ≤ st.d.length; omega) (by omega)

theorem doCubeAbs_ok (cv : Canvas) (tr : Trace) (st : EState)
    (out : Trace × StepNext) (h : doCubeAbs cv tr st = out) :
    drawStepOK st tr out := by
  unfold doCubeAbs at h
  split at h
  · subst h; exact drawStepOK_stopTail le_rfl
  · rename_i c1x d1 heq1
    have l1 := decodeCoordinateNumber_length heq1
    split at h
    · subst h; exact drawStepOK_stopTail (by omega)
    · rename_i c1y d2 heq2
      have l2 := decodeCoordinateNumber_length heq2
      split at h
      · subst h; exact drawStepOK_stopTail (by omega)
      · rename_i c2x d3 heq3
        have l3 := decodeCoordinateNumber_length heq3
        split at h
        · subst h; exact drawStepOK_stopTail (by omega)
        · rename_i c2y d4 heq4
          have l4 := decodeCoordinateNumber_length heq4
          split at h
          · subst h; exact drawStepOK_stopTail (by omega)
          · rename_i ex d5 heq5
            have l5 := decodeCoordinateNumber_length heq5
            split at h
            · subst h; exact drawStepOK_stopTail (by omega)
            · rename_i ey d6 heq6
              have l6 := decodeCoordinateNumber_length heq6
              exact drawStepOK_of_finishOp h (by simp [Event.isBookend]) rfl
                (by show d6.length ≤ st.d.length; omega) (by omega)

theorem doCubeRel_ok (cv : Canvas) (tr : Trace) (st : EState)
    (out : Trace × StepNext) (h : doCubeRel cv tr st = out) :
    drawStepOK st tr out := by
  unfold doCubeRel at h
  split at h
  · subst h; exact drawStepOK_stopTail le_rfl
  · rename_i dc1x d1 heq1
    have l1 := decodeCoordinateNumber_length heq1
    split at h
    · subst h; exact drawStepOK_stopTail (by omega)
    · rename_i dc1y d2 heq2
      have l2 := decodeCoordinateNumber_length heq2
      split at h
      · subst h; exact drawStepOK_stopTail (by omega)
      · rename_i dc2x d3 heq3
        have l3 := decodeCoordinateNumber_length heq3
        split at h
        · subst h; exact drawStepOK_stopTail (by omega)
        · rename_i dc2y d4 heq4
          have l4 := decodeCoordinateNumber_length heq4
          split at h
          · subst h; exact drawStepOK_stopTail (by omega)
          · rename_i dex d5 heq5
            have l5 := decodeCoordinateNumber_length heq5
            split at h
            · subst h; exact drawStepOK_stopTail (by omega)
            · rename_i dey d6 heq6
              have l6 := decodeCoordinateNumber_length heq6
              exact drawStepOK_of_finishOp h (by simp [Event.isBookend]) rfl
                (by show d6.length ≤ st.d.length; omega) (by omega)

theorem doArcAbs_ok (env : Env) (cv : Canvas) (tr : Trace) (st : EState)
    (out : Trace × StepNext) (h : doArcAbs env cv tr st = out) :
    drawStepOK st tr out := by
  unfold doArcAbs at h
  split at h
  · subst h; exact drawStepOK_stopTail le_rfl
  · rename_i rx d1 heq1
    have l1 := decodeCoordinateNumber_length heq1
    split at h
    · subst h; exact drawStepOK_stopTail (by omega)
    · rename_i ry d2 heq2
      have l2 := decodeCoordinateNumber_length heq2
      split at h
      · subst h; exact drawStepOK_stopTail (by omega)
      · rename_i rot d3 heq3
        have l3 := decodeZeroToOneNumber_length heq3
        split at h
        · subst h; exact drawStepOK_stopTail (by omega)
        · rename_i fl d4 heq4
          have l4 := decodeNaturalNumber_length heq4
          split at h
          · subst h; exact drawStepOK_stopTail (by omega)
          · rename_i cx d5 heq5
            have l5 := decodeCoordinateNumber_length heq5
            split at h
            · subst h; exact drawStepOK_stopTail (by omega)
            · rename_i cy d6 heq6
              have l6 := decodeCoordinateNumber_length heq6
              refine drawStepOK_of_finishOp h ?_ rfl
                (by show d6.length ≤ st.d.length; omega) (by omega)
              intro e he
              obtain ⟨c, -, rfl⟩ := List.mem_map.mp he
              rfl

theorem doArcRel_ok (env : Env) (cv : Canvas) (tr : Trace) (st : EState)
    (out : Trace × StepNext) (h : doArcRel env cv tr st = out) :
    drawStepOK st tr out := by
  unfold doArcRel at h
  split at h
  · subst h; exact drawStepOK_stopTail le_rfl
  · rename_i rx d1 heq1
    have l1 := decodeCoordinateNumber_length heq1
    split at h
    · subst h; exact drawStepOK_stopTail (by omega)
    · rename_i ry d2 heq2
      have l2 := decodeCoordinateNumber_length heq2
      split at h
      · subst h; exact drawStepOK_stopTail (by omega)
      · rename_i rot d3 heq3
        have l3 := decodeZeroToOneNumber_length heq3
        split at h
        · subst h; exact drawStepOK_stopTail (by omega)
        · rename_i fl d4 heq4
          have l4 := decodeNaturalNumber_length heq4
          split at h
          · subst h; exact drawStepOK_stopTail (by omega)
          · rename_i dx d5 heq5
            have l5 := decodeCoordinateNumber_length heq5
            split at h
            · subst h; exact drawStepOK_stopTail (by omega)
            · rename_i dy d6 heq6
              have l6 := decodeCoordinateNumber_length heq6
              refine drawStepOK_of_finishOp h ?_ rfl
                (by show d6.length ≤ st.d.length; omega) (by omega)
              intro e he
              obtain ⟨c, -, rfl⟩ := List.mem_map.mp he
              rfl

theorem repLoop_ok {f : Trace → EState → Trace × StepNext}
    (hf : ∀ tr st out, f tr st = out → drawStepOK st tr out) :
    ∀ (n : ℕ) (tr : Trace) (st : EState) (out : Trace × StepNext),
      repLoop f n tr st = out → drawStepOK st tr out := by
  intro n
  induction n with
  | zero =>
    intro tr st out h
    simp only [repLoop] at h
    subst h
    refine ⟨⟨[], by simp, by simp [midOK]⟩, ?_, ?_⟩
    · intro st1 hc
      simp only [StepNext.cont.injEq] at hc
      exact ⟨by rw [← hc], by rw [← hc]⟩
    · intro r dd hh; simp at hh
  | succ n ih =>
    intro tr st out h
    unfold repLoop at h
    cases hf0 : f tr st with
    | mk tr1 nx =>
      rw [hf0] at h
      cases nx with
      | cont st1 => exact drawStepOK_comp (hf tr st _ hf0) (ih tr1 st1 out h)
      | stop res dR => subst h; exact hf tr st _ hf0

theorem drawStepOK_weaken {st st1 : EState} {tr : Trace} {out : Trace × StepNext}
    (hcu : st1.curUser = st.curUser) (hdl : st1.d.length ≤ st.d.length)
    (h : drawStepOK st1 tr out) : drawStepOK st tr out := by
  obtain ⟨⟨mid, he, ho⟩, hc, hs⟩ := h
  refine ⟨⟨mid, he, fun te hte => ⟨by rw [(ho te hte).1, hcu], (ho te hte).2⟩⟩, ?_, ?_⟩
  · intro s hc1
    exact ⟨(hc s hc1).1.trans hcu, (hc s hc1).2.trans hdl⟩
  · intro r dd hh
    exact (hs r dd hh).trans hdl

theorem drawingStep_ok (env : Env) (cv : Canvas) (tr : Trace) (st : EState)
    (out : Trace × StepNext) (h : drawingStep env cv tr st = out) :
    drawStepOK st tr out := by
  unfold drawingStep at h
  split at h
  · subst h; exact drawStepOK_stopTail (Nat.zero_le _)
  · rename_i opcode d1 heqd
    have hdl1 : d1.length ≤ st.d.length := by rw [heqd]; simp
    have hw : ∀ o, drawStepOK { st with d := d1 } tr o → drawStepOK st tr o :=
      fun o => drawStepOK_weaken rfl hdl1
    split at h
    · exact hw out (repLoop_ok (fun a b c => doLineAbs_ok cv a b c) _ _ _ _ h)
    · exact hw out (repLoop_ok (fun a b c => doLineAbs_ok cv a b c) _ _ _ _ h)
    · exact hw out (repLoop_ok (fun a b c => doLineRel_ok cv a b c) _ _ _ _ h)
    · exact hw out (repLoop_ok (fun a b c => doLineRel_ok cv a b c) _ _ _ _ h)
    · exact hw out (repLoop_ok (fun a b c => doQuadSmoothAbs_ok cv a b c) _ _ _ _ h)
    · exact hw out (repLoop_ok (fun a b c => doQuadSmoothRel_ok cv a b c) _ _ _ _ h)
    · exact hw out (repLoop_ok (fun a b c => doQuadAbs_ok cv a b c) _ _ _ _ h)
    · exact hw out (repLoop_ok (fun a b c => doQuadRel_ok cv a b c) _ _ _ _ h)
    · exact hw out (repLoop_ok (fun a b c => doCubeSmoothAbs_ok cv a b c) _ _ _ _ h)
    · exact hw out (repLoop_ok (fun a b c => doCubeSmoothRel_ok cv a b c) _ _ _ _ h)
    · exact hw out (repLoop_ok (fun a b c => doCubeAbs_ok cv a b c) _ _ _ _ h)
    · exact hw out (repLoop_ok (fun a b c => doCubeRel_ok cv a b c) _ _ _ _ h)
    · exact hw out (repLoop_ok (fun a b c => doArcAbs_ok env cv a b c) _ _ _ _ h)
    · exact hw out (repLoop_ok (fun a b c => doArcRel_ok env cv a b c) _ _ _ _ h)
    · split at h
      · -- 0xE1
        exact drawStepOK_of_finishOp h (by simp [Event.isBookend]) rfl hdl1 hdl1
      · -- 0xE2
        split at h
        · rename_i tr1 err hem
          obtain ⟨m1, hm1, ha1⟩ := emitSeq_ok cv st.curUser [.endPath] tr
          rw [hem] at hm1
          simp only [] at hm1
          subst h
          refine ⟨⟨m1, hm1, ?_⟩, ?_, ?_⟩
          · intro te hte
            refine ⟨(ha1 te hte).1, ?_⟩
            have h2 := (ha1 te hte).2
            simp at h2
            rw [h2]; rfl
          · intro s hc; simp at hc
          · intro r dd hh
            simp only [StepNext.stop.injEq] at hh
            rw [← hh.2]; exact hdl1
        · rename_i tr1 hem
          obtain ⟨m1, hm1, ha1⟩ := emitSeq_ok cv st.curUser [.endPath] tr
          rw [hem] at hm1
          simp only [] at hm1
          have hphase : drawStepOK st tr (tr1, .cont st) := by
            refine ⟨⟨m1, hm1, ?_⟩, ?_, ?_⟩
            · intro te hte
              refine ⟨(ha1 te hte).1, ?_⟩
              have h2 := (ha1 te hte).2
              simp at h2
              rw [h2]; rfl
            · intro s hc
              simp only [StepNext.cont.injEq] at hc
              exact ⟨by rw [← hc], by rw [← hc]⟩
            · intro r dd hh; simp at hh
          refine drawStepOK_comp hphase ?_
          split at h
          · subst h; exact drawStepOK_stopTail hdl1
          · rename_i cx d2 heq1
            have l1 := decodeCoordinateNumber_length heq1
            split at h
            · subst h; exact drawStepOK_stopTail (by rw [heqd]; simp; omega)
            · rename_i cy d3 heq2
              have l2 := decodeCoordinateNumber_length heq2
              exact drawStepOK_of_finishOp h (by simp [Event.isBookend]) rfl
                (by show d3.length ≤ st.d.length; rw [heqd]; simp; omega)
                (by rw [heqd]; simp; omega)
      · -- 0xE3
        split at h
        · rename_i tr1 err hem
          obtain ⟨m1, hm1, ha1⟩ := emitSeq_ok cv st.curUser [.endPath] tr
          rw [hem] at hm1
          simp only [] at hm1
          subst h
          refine ⟨⟨m1, hm1, ?_⟩, ?_, ?_⟩
          · intro te hte
            refine ⟨(ha1 te hte).1, ?_⟩
            have h2 := (ha1 te hte).2
            simp at h2
            rw [h2]; rfl
          · intro s hc; simp at hc
          · intro r dd hh
            simp only [StepNext.stop.injEq] at hh
            rw [← hh.2]; exact hdl1
        · rename_i tr1 hem
          obtain ⟨m1, hm1, ha1⟩ := emitSeq_ok cv st.curUser [.endPath] tr
          rw [hem] at hm1
          simp only [] at hm1
          have hphase : drawStepOK st tr (tr1, .cont st) := by
            refine ⟨⟨m1, hm1, ?_⟩, ?_, ?_⟩
            · intro te hte
              refine ⟨(ha1 te hte).1, ?_⟩
              have h2 := (ha1 te hte).2
              simp at h2
              rw [h2]; rfl
            · intro s hc
              simp only [StepNext.cont.injEq] at hc
              exact ⟨by rw [← hc], by rw [← hc]⟩
            · intro r dd hh; simp at hh
          refine drawStepOK_comp hphase ?_
          split at h
          · subst h; exact drawStepOK_stopTail hdl1
          · rename_i dx d2 heq1
            have l1 := decodeCoordinateNumber_length heq1
            split at h
            · subst h; exact drawStepOK_stopTail (by rw [heqd]; simp; omega)
            · rename_i dy d3 heq2
              have l2 := decodeCoordinateNumber_length heq2
              exact drawStepOK_of_finishOp h (by simp [Event.isBookend]) rfl
                (by show d3.length ≤ st.d.length; rw [heqd]; simp; omega)
                (by rw [heqd]; simp; omega)
      · -- 0xE6
        split at h
        · subst h; exact drawStepOK_stopTail hdl1
        · rename_i cx d2 heq1
          have l1 := decodeCoordinateNumber_length heq1
          exact drawStepOK_of_finishOp h (by simp [Event.isBookend]) rfl
            (by show d2.length ≤ st.d.length; rw [heqd]; simp; omega)
            (by rw [heqd]; simp; omega)
      · -- 0xE7
        split at h
        · subst h; exact drawStepOK_stopTail hdl1
        · rename_i dx d2 heq1
          have l1 := decodeCoordinateNumber_length heq1
          exact drawStepOK_of_finishOp h (by simp [Event.isBookend]) rfl
            (by show d2.length ≤ st.d.length; rw [heqd]; simp; omega)
            (by rw [heqd]; simp; omega)
      · -- 0xE8
        split at h
        · subst h; exact drawStepOK_stopTail hdl1
        · rename_i cy d2 heq1
          have l1 := decodeCoordinateNumber_length heq1
          exact drawStepOK_of_finishOp h (by simp [Event.isBookend]) rfl
            (by show d2.length ≤ st.d.length; rw [heqd]; simp; omega)
            (by rw [heqd]; simp; omega)
      · -- 0xE9
        split at h
        · subst h; exact drawStepOK_stopTail hdl1
        · rename_i dy d2 heq1
          have l1 := decodeCoordinateNumber_length heq1
          exact drawStepOK_of_finishOp h (by simp [Event.isBookend]) rfl
            (by show d2.length ≤ st.d.length; rw [heqd]; simp; omega)
            (by rw [heqd]; simp; omega)
      · subst h; exact drawStepOK_stopTail hdl1

/-- Sanity of any interpreter step (either mode): the trace grows only by
non-bookend events, and the cursor never grows. -/
def stepOKAny (st : EState) (tr : Trace) (out : Trace × StepNext) : Prop :=
  (∃ mid, out.1 = tr ++ mid ∧ ∀ te ∈ mid, te.2.isBookend = false) ∧
  (∀ st1, out.2 = .cont st1 → st1.d.length ≤ st.d.length) ∧
  (∀ res dR, out.2 = .stop res dR → dR.length ≤ st.d.length)

theorem stepOKAny_stop {st : EState} {tr : Trace} {res : Option Err}
    {dR : List ℕ} (hle : dR.length ≤ st.d.length) :
    stepOKAny st tr (tr, .stop res dR) := by
  refine ⟨⟨[], by simp, by simp⟩, ?_, ?_⟩
  · intro st1 hc; simp at hc
  · intro r dd hh
    simp only [StepNext.stop.injEq] at hh
    exact hh.2 ▸ hle

theorem stepOKAny_cont {st : EState} {tr : Trace} {st1 : EState}
    (hle : st1.d.length ≤ st.d.length) :
    stepOKAny st tr (tr, .cont st1) := by
  refine ⟨⟨[], by simp, by simp⟩, ?_, ?_⟩
  · intro s hc
    simp only [StepNext.cont.injEq] at hc
    exact hc ▸ hle
  · intro r dd hh; simp at hh

theorem drawStepOK_any {st : EState} {tr : Trace} {out : Trace × StepNext}
    (h : drawStepOK st tr out) : stepOKAny st tr out := by
  obtain ⟨⟨mid, he, ho⟩, hc, hs⟩ := h
  exact ⟨⟨mid, he, fun te hte => (ho te hte).2⟩, fun s hc1 => (hc s hc1).2, hs⟩

theorem stepOKAny_of_finishOp {cv : Canvas} {u : Bool} {tr : Trace} {st : EState}
    {es : List Event} {dR : List ℕ} {stC : EState} {out : Trace × StepNext}
    (h : finishOp cv u tr es dR stC = out)
    (hbk : ∀ e ∈ es, e.isBookend = false)
    (hdl : stC.d.length ≤ st.d.length) (hdR : dR.length ≤ st.d.length) :
    stepOKAny st tr out := by
  obtain ⟨⟨mid, he, ho⟩, hcont, hstop⟩ := finishOp_ok h hbk
  refine ⟨⟨mid, he, fun te hte => (ho te hte).2⟩, ?_, ?_⟩
  · intro s hc; rw [hcont s hc]; exact hdl
  · intro r dd hh; rw [hstop r dd hh]; exact hdR

theorem stylingStep_ok (env : Env) (cv : Canvas) (tr : Trace) (st : EState)
    (out : Trace × StepNext) (h : stylingStep env cv tr st = out) :
    stepOKAny st tr out := by
  unfold stylingStep at h
  split at h
  · subst h; exact stepOKAny_stop (Nat.zero_le _)
  · rename_i opcode d1 heqd
    have hdl1 : d1.length ≤ st.d.length := by rw [heqd]; simp only [List.length_cons]; omega
    by_cases h1 : opcode < 0x80
    · rw [if_pos h1] at h
      subst h
      exact stepOKAny_cont (by split <;> exact hdl1)
    · rw [if_neg h1] at h
      by_cases h2 : opcode < 0x88
      · rw [if_pos h2] at h
        split at h
        · rename_i p0 d2
          subst h
          exact stepOKAny_cont (by show d2.length ≤ st.d.length; rw [heqd]; simp only [List.length_cons]; omega)
        · subst h; exact stepOKAny_stop hdl1
      · rw [if_neg h2] at h
        by_cases h3 : opcode < 0x90
        · rw [if_pos h3] at h
          split at h
          · rename_i p0 p1 d2
            subst h
            exact stepOKAny_cont
              (by show d2.length ≤ st.d.length; rw [heqd]; simp only [List.length_cons]; omega)
          · subst h; exact stepOKAny_stop hdl1
        · rw [if_neg h3] at h
          by_cases h4 : opcode < 0x98
          · rw [if_pos h4] at h
            split at h
            · rename_i p0 p1 p2 d2
              subst h
              exact stepOKAny_cont
                (by show d2.length ≤ st.d.length; rw [heqd]; simp only [List.length_cons]; omega)
            · subst h; exact stepOKAny_stop hdl1
          · rw [if_neg h4] at h
            by_cases h5 : opcode < 0xA0
            · rw [if_pos h5] at h
              split at h
              · rename_i p0 p1 p2 p3 d2
                subst h
                exact stepOKAny_cont
                  (by show d2.length ≤ st.d.length; rw [heqd]; simp only [List.length_cons]; omega)
              · subst h; exact stepOKAny_stop hdl1
            · rw [if_neg h5] at h
              by_cases h6 : opcode < 0xA8
              · rw [if_pos h6] at h
                split at h
                · rename_i p0 p1 p2 d2
                  subst h
                  exact stepOKAny_cont
                    (by show d2.length ≤ st.d.length; rw [heqd]; simp only [List.length_cons]; omega)
                · subst h; exact stepOKAny_stop hdl1
              · rw [if_neg h6] at h
                by_cases h7 : opcode < 0xB0
                · rw [if_pos h7] at h
                  split at h
                  · rename_i num d2 heq1
                    have l1 := decodeRealNumber_length heq1
                    subst h
                    exact stepOKAny_cont
                      (by show d2.length ≤ st.d.length; rw [heqd]; simp only [List.length_cons]; omega)
                  · subst h; exact stepOKAny_stop hdl1
                · rw [if_neg h7] at h
                  by_cases h8 : opcode < 0xB8
                  · rw [if_pos h8] at h
                    split at h
                    · rename_i num d2 heq1
                      have l1 := decodeCoordinateNumber_length heq1
                      subst h
                      exact stepOKAny_cont
                        (by show d2.length ≤ st.d.length; rw [heqd]; simp only [List.length_cons]; omega)
                    · subst h; exact stepOKAny_stop hdl1
                  · rw [if_neg h8] at h
                    by_cases h9 : opcode < 0xC0
                    · rw [if_pos h9] at h
                      split at h
                      · rename_i num d2 heq1
                        have l1 := decodeZeroToOneNumber_length heq1
                        subst h
                        exact stepOKAny_cont
                          (by show d2.length ≤ st.d.length; rw [heqd]; simp only [List.length_cons]; omega)
                      · subst h; exact stepOKAny_stop hdl1
                    · rw [if_neg h9] at h
                      by_cases h10 : opcode < 0xC7
                      · rw [if_pos h10] at h
                        by_cases hp : env.paintInvalid
                            (st.creg.getD (regIndex st.sel0 opcode) ⟨0, 0, 0, 0⟩) = true
                        · rw [if_pos hp] at h
                          subst h; exact stepOKAny_stop hdl1
                        · rw [if_neg hp] at h
                          split at h
                          · subst h; exact stepOKAny_stop hdl1
                          · rename_i cx d2 heq1
                            have l1 := decodeCoordinateNumber_length heq1
                            split at h
                            · subst h
                              exact stepOKAny_stop (by rw [heqd]; simp only [List.length_cons]; omega)
                            · rename_i cy d3 heq2
                              have l2 := decodeCoordinateNumber_length heq2
                              exact stepOKAny_of_finishOp h
                                (by simp [Event.isBookend])
                                (by show d3.length ≤ st.d.length; rw [heqd]; simp only [List.length_cons]; omega)
                                (by rw [heqd]; simp only [List.length_cons]; omega)
                      · rw [if_neg h10] at h
                        by_cases h11 : opcode < 0xC8
                        · rw [if_pos h11] at h
                          split at h
                          · subst h; exact stepOKAny_stop hdl1
                          · rename_i l0 d2 heq1
                            have l1 := decodeRealNumber_length heq1
                            split at h
                            · subst h
                              exact stepOKAny_stop (by rw [heqd]; simp only [List.length_cons]; omega)
                            · rename_i l1v d3 heq2
                              have l2 := decodeRealNumber_length heq2
                              subst h
                              exact stepOKAny_cont
                                (by show d3.length ≤ st.d.length; rw [heqd]; simp only [List.length_cons]; omega)
                        · rw [if_neg h11] at h
                          subst h; exact stepOKAny_stop hdl1

theorem execStep_ok (env : Env) (cv : Canvas) (tr : Trace) (st : EState)
    (out : Trace × StepNext) (h : execStep env cv tr st = out) :
    stepOKAny st tr out := by
  unfold execStep at h
  split at h
  · exact stylingStep_ok env cv tr st out h
  · exact drawStepOK_any (drawingStep_ok env cv tr st out h)

theorem execLoop_ok (env : Env) (cv : Canvas) :
    ∀ (fuel : ℕ) (tr : Trace) (st : EState) (res : Option Err) (tr1 : Trace)
      (dR : List ℕ), execLoop env cv fuel tr st = (res, tr1, dR) →
      (∃ mid, tr1 = tr ++ mid ∧ ∀ te ∈ mid, te.2.isBookend = false) ∧
      dR.length ≤ st.d.length := by
  intro fuel
  induction fuel with
  | zero =>
    intro tr st res tr1 dR h
    simp only [execLoop, Prod.mk.injEq] at h
    exact ⟨⟨[], by simp [← h.2.1], by simp⟩, by rw [← h.2.2]⟩
  | succ n ih =>
    intro tr st res tr1 dR h
    unfold execLoop at h
    cases hs : execStep env cv tr st with
    | mk tr2 nx =>
      rw [hs] at h
      have hok := execStep_ok env cv tr st _ hs
      cases nx with
      | cont st1 =>
        obtain ⟨⟨m1, he1, hb1⟩, hc, -⟩ := hok
        obtain ⟨⟨m2, he2, hb2⟩, hlen⟩ := ih tr2 st1 res tr1 dR h
        simp only [] at he1
        refine ⟨⟨m1 ++ m2, by rw [he2, he1, List.append_assoc], ?_⟩, ?_⟩
        · intro te hte
          rcases List.mem_append.mp hte with hA | hB
          · exact hb1 te hA
          · exact hb2 te hB
        · exact hlen.trans (hc st1 rfl)
      | stop r dd =>
        simp only [Prod.mk.injEq] at h
        obtain ⟨rfl, rfl, rfl⟩ := h
        obtain ⟨⟨m1, he1, hb1⟩, -, hstop⟩ := hok
        simp only [] at he1
        exact ⟨⟨m1, he1, hb1⟩, hstop r dd rfl⟩

theorem decodeMagicIdentifier_length {d d1 : List ℕ}
    (h : decodeMagicIdentifier d = some d1) : d1.length ≤ d.length := by
  match d with
  | [] => simp [decodeMagicIdentifier] at h
  | [a] => simp [decodeMagicIdentifier] at h
  | [a, b] => simp [decodeMagicIdentifier] at h
  | [a, b, c] => simp [decodeMagicIdentifier] at h
  | a :: b :: c :: e :: rest =>
    simp only [decodeMagicIdentifier] at h
    split_ifs at h
    simp only [Option.some.injEq] at h
    subst h
    simp
    omega

theorem metadataLoop_length (env : Env) :
    ∀ (n : ℕ) (prev : ℤ) (vb : Rect) (pal : Palette) (d : List ℕ),
      (metadataLoop env n prev vb pal d).2.2.2.length ≤ d.length := by
  intro n
  induction n with
  | zero => intro prev vb pal d; simp [metadataLoop]
  | succ n ih =>
    intro prev vb pal d
    unfold metadataLoop
    cases hcl : decodeNaturalNumber d with
    | none => simp
    | some p =>
      obtain ⟨cl, d1⟩ := p
      have l1 := decodeNaturalNumber_length hcl
      by_cases hlen : d1.length < cl
      · simp [hlen]; omega
      · simp only [hlen, if_false]
        cases hm : decodeNaturalNumber (d1.take cl) with
        | none => simp; omega
        | some q =>
          obtain ⟨mid, chunkRest⟩ := q
          by_cases hord : prev ≥ (mid : ℤ)
          · simp [hord]; omega
          · simp only [hord, if_false]
            by_cases h0 : mid = 0
            · simp only [h0, if_true]
              cases hvb : decodeMetadataViewbox chunkRest vb with
              | mk ok rest =>
                by_cases hok : ok = false ∨ rest.2 ≠ []
                · simp [hok]
                  omega
                · simp only [hok, if_false]
                  calc (metadataLoop env n 0 rest.1 pal (d1.drop cl)).2.2.2.length
                      ≤ (d1.drop cl).length := ih 0 rest.1 pal (d1.drop cl)
                    _ ≤ d.length := by simp; omega
            · simp only [h0, if_false]
              by_cases h1 : mid = 1
              · simp only [h1, if_true]
                cases hsp : decodeMetadataSuggestedPalette env.oneByteColors chunkRest pal with
                | mk ok rest =>
                  by_cases hok : ok = false ∨ rest.2 ≠ []
                  · simp [hok]
                    omega
                  · simp only [hok, if_false]
                    calc (metadataLoop env n 1 vb rest.1 (d1.drop cl)).2.2.2.length
                        ≤ (d1.drop cl).length := ih 1 vb rest.1 (d1.drop cl)
                      _ ≤ d.length := by simp; omega
              · simp [h1]
                omega

theorem executeBytecode_ok {env : Env} {cv : Canvas} {r : Rect} {tr : Trace}
    {d : List ℕ} {vb : Rect} {creg : Palette} {nreg : List FV} {pal : Palette}
    {p0 : Color} {hh : ℤ} {res : Option Err} {tr2 : Trace} {dR : List ℕ}
    (h : executeBytecode env cv r tr d vb creg nreg pal p0 hh = (res, tr2, dR)) :
    (∃ mid, tr2 = tr ++ mid ∧ ∀ te ∈ mid, te.2.isBookend = false) ∧
    dR.length ≤ d.length := by
  unfold executeBytecode at h
  exact execLoop_ok env cv (d.length + 1) tr
    (initExecState r d vb creg nreg pal p0 hh) res tr2 dR h

theorem privateDecode_ok {env : Env} {cv : Canvas} {r : Rect} {tr : Trace}
    {d : List ℕ} {options : DecodeOptions} {res : Option Err} {tr2 : Trace}
    {dR : List ℕ}
    (h : privateDecode env cv r tr d options = (res, tr2, dR)) :
    (∃ mid, tr2 = tr ++ mid ∧ ∀ te ∈ mid, te.2.isBookend = false) ∧
    dR.length ≤ d.length := by
  unfold privateDecode at h
  split at h
  · -- bad magic
    simp only [Prod.mk.injEq] at h
    exact ⟨⟨[], by simp [← h.2.1], by simp⟩, by rw [← h.2.2]⟩
  · rename_i d1 hmg
    have lmg := decodeMagicIdentifier_length hmg
    split at h
    · -- bad metadata count
      simp only [Prod.mk.injEq] at h
      refine ⟨⟨[], by simp [← h.2.1], by simp⟩, ?_⟩
      rw [← h.2.2]; omega
    · rename_i numChunks d2 hnn
      have lnn := decodeNaturalNumber_length hnn
      have lml := metadataLoop_length env numChunks (-1) defaultViewbox defaultPalette d2
      split at h
      · -- metadata error
        rename_i e vbx palx d3 hml
        rw [hml] at lml
        simp only [] at lml
        simp only [Prod.mk.injEq] at h
        refine ⟨⟨[], by simp [← h.2.1], by simp⟩, ?_⟩
        rw [← h.2.2]; omega
      · rename_i vb pal d3 hml
        rw [hml] at lml
        simp only [] at lml
        obtain ⟨m1, hm1, ha1⟩ := emitSeq_ok cv true
          [.onMetadataViewbox vb, .onMetadataSuggestedPalette pal] tr
        have hbk1 : ∀ te ∈ m1, te.2.isBookend = false := by
          intro te hte
          have h2 := (ha1 te hte).2
          simp at h2
          rcases h2 with h2 | h2 <;> (rw [h2]; rfl)
        split at h
        · -- canvas error on metadata notification
          rename_i tr1 err hes
          rw [hes] at hm1
          simp only [] at hm1
          simp only [Prod.mk.injEq] at h
          refine ⟨⟨m1, by rw [← h.2.1, hm1], hbk1⟩, ?_⟩
          rw [← h.2.2]; omega
        · rename_i tr1 hes
          rw [hes] at hm1
          simp only [] at hm1
          obtain ⟨⟨m2, he2, hb2⟩, hlen2⟩ := executeBytecode_ok h
          refine ⟨⟨m1 ++ m2, ?_, ?_⟩, ?_⟩
          · rw [he2, hm1, List.append_assoc]
          · intro te hte
            rcases List.mem_append.mp hte with hA | hB
            · exact hbk1 te hA
            · exact hb2 te hB
          · omega

/-! ## Shared concrete instances for closed evaluations -/

/-- A concrete instantiation of the external helpers, used in closed
evaluations (any instantiation works for the universally quantified
theorems). -/
def sampleEnv : Env :=
  { oneByteColors := fun _ => ⟨0, 0, 0, 0xFF⟩,
    setOneByteColor := fun _ _ _ => ⟨1, 2, 3, 4⟩,
    paintInvalid := fun _ => false,
    arcTo := fun _ => [] }

/-- A canvas whose `end_decode` returns its `err_msg` argument unchanged
and whose other callbacks succeed (a typical backend). -/
def sampleCanvas : Canvas :=
  { sizeofOk := true,
    respond := fun _ e =>
      match e with
      | .endDecode err _ _ => err
      | _ => none }

/-- The all-zero rectangle (canonical empty). -/
def rect0 : Rect := ⟨.fin 0, .fin 0, .fin 0, .fin 0⟩

/-- `begin_decode` events. -/
def Event.isBeginDecode : Event → Bool
  | .beginDecode _ => true
  | _ => false

/-- `end_decode` events. -/
def Event.isEndDecode : Event → Bool
  | .endDecode _ _ _ => true
  | _ => false

theorem not_bookend_not_bd {e : Event} (h : e.isBookend = false) :
    e.isBeginDecode = false ∧ e.isEndDecode = false := by
  cases e <;> simp_all [Event.isBookend, Event.isBeginDecode, Event.isEndDecode]

/-! ## The claims -/

/-- C1: any input whose first four bytes are not `0x89 0x49 0x56 0x47` (or
that is shorter) fails with *bad magic identifier*. The decoder.c
implementations do fail that way; the older single-file variant's
`decode_magic_identifier` joins its conditions with `&&` instead of `||`,
so its `iconvg_decode_viewbox` accepts the bad magic `00 00 00 00` and
fails only later, with *bad metadata* instead. -/
theorem C1_bad_magic_divergence :
    decodeViewbox [0x00, 0x00, 0x00, 0x00] = .error .badMagicIdentifier ∧
    (privateDecode sampleEnv brokenCanvasNull rect0 [] [0x00, 0x00, 0x00, 0x00]
      ⟨none, none⟩).1 = some .badMagicIdentifier ∧
    decodeViewboxV0 [0x00, 0x00, 0x00, 0x00] = .error .badMetadata := by
  decide

/-- C3 counterexample: on the file `magic; 2 chunks with ids (5, 3)`, the
older single-file `iconvg_decode_viewbox` succeeds (returning the default
ViewBox) instead of failing with *bad metadata id order*: it performs no
id-ordering validation. -/
theorem C3_counterexample :
    decodeViewboxV0 [0x89, 0x49, 0x56, 0x47, 0x04, 0x02, 0x0A, 0x02, 0x06] =
      .ok defaultViewbox := by
  decide

/-- C3 (amended to decoder.c): whenever the next metadata chunk frames
correctly and its id is not strictly greater than the previous id, both the
full-decode metadata loop (`iconvg_decode` via `iconvg_private_decode`) and
decoder.c's `iconvg_decode_viewbox` loop fail with
*bad metadata id order*. -/
theorem C3_metadata_id_order (env : Env) (n : ℕ) (hn : 0 < n) (prev : ℤ)
    (vb : Rect) (pal : Palette) (useDefault : Bool) (dst : Rect)
    (d d1 chunkRest : List ℕ) (cl mid : ℕ)
    (hcl : decodeNaturalNumber d = some (cl, d1))
    (hlen : ¬d1.length < cl)
    (hmid : decodeNaturalNumber (d1.take cl) = some (mid, chunkRest))
    (horder : prev ≥ (mid : ℤ)) :
    (metadataLoop env n prev vb pal d).1 = some .badMetadataIdOrder ∧
    viewboxMetadataLoop n prev useDefault dst d = .error .badMetadataIdOrder := by
  cases n with
  | zero => exact absurd hn (by omega)
  | succ n =>
    constructor
    · simp only [metadataLoop, hcl, hmid, if_neg hlen, if_pos horder]
    · simp only [viewboxMetadataLoop, hcl, hmid, if_neg hlen, if_pos horder]

/-- C3 witness: one chunk of id 3 after a previous id of 5. -/
theorem C3_metadata_id_order_witness :
    (metadataLoop sampleEnv 1 5 defaultViewbox defaultPalette [0x02, 0x06]).1 =
      some .badMetadataIdOrder ∧
    viewboxMetadataLoop 1 5 true rect0 [0x02, 0x06] =
      .error .badMetadataIdOrder :=
  C3_metadata_id_order sampleEnv 1 (by decide) 5 defaultViewbox defaultPalette
    true rect0 [0x02, 0x06] [0x06] [] 1 3 (by decide) (by decide) (by decide)
    (by decide)

/-- The claim's acceptance condition for an id-0 (ViewBox) chunk body: four
coordinate numbers decode, they consume the chunk exactly, and
`-inf < min_x <= max_x < +inf` and `-inf < min_y <= max_y < +inf` hold.
(Stated from the claim's words, for comparison with the source-derived
`decodeMetadataViewbox`.) -/
def viewboxChunkAcceptable (chunk : List ℕ) : Bool :=
  match decodeCoordinateNumber chunk with
  | none => false
  | some (mnx, c1) =>
    match decodeCoordinateNumber c1 with
    | none => false
    | some (mny, c2) =>
      match decodeCoordinateNumber c2 with
      | none => false
      | some (mxx, c3) =>
        match decodeCoordinateNumber c3 with
        | none => false
        | some (mxy, c4) =>
          c4.isEmpty && FV.lt (.inf true) mnx && FV.le mnx mxx &&
            FV.lt mxx (.inf false) && FV.lt (.inf true) mny &&
            FV.le mny mxy && FV.lt mxy (.inf false)

/-- C4 counterexample: the older single-file `iconvg_decode_viewbox`
accepts an id-0 chunk decoding to the rectangle `(1, 0, 0, 0)`, which
violates `min_x <= max_x`; the claim requires rejection with
*bad metadata (viewbox)*. -/
theorem C4_counterexample :
    decodeViewboxV0 [0x89, 0x49, 0x56, 0x47, 0x02, 0x0A, 0x00,
      0x82, 0x80, 0x80, 0x80] = .ok ⟨.fin 1, .fin 0, .fin 0, .fin 0⟩ ∧
    FV.le (.fin 1) (.fin 0) = false :=
  ⟨by with_unfolding_all rfl, by decide⟩

/-- `decode_metadata_viewbox` (decoder.c) accepts, leaving nothing of the
chunk, exactly under the claim's acceptance condition. -/
theorem decodeMetadataViewbox_accept_iff (chunk : List ℕ) (dst : Rect) :
    ((decodeMetadataViewbox chunk dst).1 = true ∧
      (decodeMetadataViewbox chunk dst).2.2 = []) ↔
    viewboxChunkAcceptable chunk = true := by
  simp only [decodeMetadataViewbox, viewboxChunkAcceptable]
  rcases h1 : decodeCoordinateNumber chunk with _ | ⟨mnx, c1⟩
  · simp [h1]
  · simp only [h1]
    rcases h2 : decodeCoordinateNumber c1 with _ | ⟨mny, c2⟩
    · simp [h2]
    · simp only [h2]
      rcases h3 : decodeCoordinateNumber c2 with _ | ⟨mxx, c3⟩
      · simp [h3]
      · simp only [h3]
        rcases h4 : decodeCoordinateNumber c3 with _ | ⟨mxy, c4⟩
        · simp [h4]
        · simp only [h4, Bool.and_eq_true, List.isEmpty_iff]
          tauto

/-- C4 (amended to decoder.c): an id-0 chunk is accepted by decoder.c's
`decode_metadata_viewbox` exactly under the claim's condition (four
coordinates decode, full consumption, finite well-ordered bounds), and the
`iconvg_private_decode` metadata loop continues on acceptance and fails
with *bad metadata (viewbox)* otherwise. -/
theorem C4_viewbox_accept (chunk : List ℕ) (dstR : Rect) (env : Env) (n : ℕ)
    (prev : ℤ) (vb : Rect) (pal : Palette) (d d1 : List ℕ) (cl : ℕ)
    (hcl : decodeNaturalNumber d = some (cl, d1))
    (hlen : ¬d1.length < cl)
    (hmid : decodeNaturalNumber (d1.take cl) = some (0, chunk))
    (horder : ¬prev ≥ ((0 : ℕ) : ℤ)) :
    (((decodeMetadataViewbox chunk dstR).1 = true ∧
        (decodeMetadataViewbox chunk dstR).2.2 = []) ↔
      viewboxChunkAcceptable chunk = true) ∧
    (metadataLoop env (n + 1) prev vb pal d =
      if viewboxChunkAcceptable chunk then
        metadataLoop env n 0 (decodeMetadataViewbox chunk vb).2.1 pal (d1.drop cl)
      else (some .badMetadataViewbox, (decodeMetadataViewbox chunk vb).2.1, pal, d1)) := by
  refine ⟨decodeMetadataViewbox_accept_iff chunk dstR, ?_⟩
  have hvb := decodeMetadataViewbox_accept_iff chunk vb
  simp only [metadataLoop, hcl, hmid, if_neg hlen, if_neg horder, if_pos rfl]
  rcases hdm : decodeMetadataViewbox chunk vb with ⟨ok, vb1, rem⟩
  rw [hdm] at hvb
  simp only [] at hvb ⊢
  by_cases hacc : viewboxChunkAcceptable chunk = true
  · obtain ⟨hok, hrem⟩ := hvb.mpr hacc
    subst hok
    subst hrem
    simp [hacc]
  · have hno : ¬(ok = true ∧ rem = []) := fun hc => hacc (hvb.mp hc)
    have hcond : ok = false ∨ rem ≠ [] := by
      cases ok
      · exact Or.inl rfl
      · exact Or.inr fun hr => hno ⟨rfl, hr⟩
    rw [if_pos hcond]
    simp [hacc]

/-- C4 witness: an id-0 chunk with an empty body inside a one-chunk
metadata section. -/
theorem C4_viewbox_accept_witness :
    (((decodeMetadataViewbox [] rect0).1 = true ∧
        (decodeMetadataViewbox [] rect0).2.2 = []) ↔
      viewboxChunkAcceptable [] = true) ∧
    (metadataLoop sampleEnv 1 (-1) defaultViewbox defaultPalette [0x02, 0x00] =
      if viewboxChunkAcceptable [] then
        metadataLoop sampleEnv 0 0 (decodeMetadataViewbox [] defaultViewbox).2.1
          defaultPalette ([0x00].drop 1)
      else (some .badMetadataViewbox,
        (decodeMetadataViewbox [] defaultViewbox).2.1, defaultPalette, [0x00])) :=
  C4_viewbox_accept [] rect0 sampleEnv 0 (-1) defaultViewbox defaultPalette
    [0x02, 0x00] [0x00] 1 (by decide) (by decide) (by decide) (by decide)

/-- C5: the coordinate-number decoder, stated in the claim's forms. On an
empty cursor it fails; if the first byte `v` has low bit 0 it consumes one
byte and yields `(v >> 1) - 64`; else if bit 1 of `v` is 0 it consumes two
bytes and yields `((little_endian_u16 >> 2) - 8192) / 64`; else it consumes
four bytes and yields the IEEE-754 bit-reinterpretation of the
little-endian u32 with the low two bits cleared. In each multi-byte branch
it fails (cursor unchanged, i.e. `none`) exactly when the declared encoding
would read past the end of the remaining bytes. -/
theorem C5_coordinate_decoder (v : ℕ) (rest : List ℕ) :
    decodeCoordinateNumber [] = none ∧
    (v % 2 = 0 →
      decodeCoordinateNumber (v :: rest) =
        some (.fin ((((v >>> 1 : ℕ) : ℤ) : ℚ) - 64), rest)) ∧
    (v % 2 = 1 → v / 2 % 2 = 0 →
      (∀ r1 rest2, rest = r1 :: rest2 →
        decodeCoordinateNumber (v :: rest) =
          some (.fin (((((peekU16le v r1 >>> 2 : ℕ) : ℤ) : ℚ) - 8192) / 64),
            rest2)) ∧
      (rest = [] → decodeCoordinateNumber (v :: rest) = none)) ∧
    (v % 2 = 1 → v / 2 % 2 = 1 →
      (∀ r1 r2 r3 rest4, rest = r1 :: r2 :: r3 :: rest4 →
        decodeCoordinateNumber (v :: rest) =
          some (f32FromBits (0xFFFFFFFC &&& peekU32le v r1 r2 r3), rest4)) ∧
      (rest.length < 3 → decodeCoordinateNumber (v :: rest) = none)) := by
  refine ⟨rfl, ?_, ?_, ?_⟩
  · intro h
    simp only [decodeCoordinateNumber, if_pos h]
    rw [Nat.shiftRight_eq_div_pow, pow_one]
  · intro h1 h2
    constructor
    · intro r1 rest2 hr
      subst hr
      simp only [decodeCoordinateNumber]
      rw [if_neg (by omega), if_pos h2]
      rw [Nat.shiftRight_eq_div_pow]
      norm_num
    · intro hr
      subst hr
      simp only [decodeCoordinateNumber]
      rw [if_neg (by omega), if_pos h2]
  · intro h1 h2
    constructor
    · intro r1 r2 r3 rest4 hr
      subst hr
      simp only [decodeCoordinateNumber]
      rw [if_neg (by omega), if_neg (by omega)]
    · intro hlen
      rcases rest with _ | ⟨a, _ | ⟨b, _ | ⟨c, t⟩⟩⟩
      · simp only [decodeCoordinateNumber]
        rw [if_neg (by omega), if_neg (by omega)]
      · simp only [decodeCoordinateNumber]
        rw [if_neg (by omega), if_neg (by omega)]
      · simp only [decodeCoordinateNumber]
        rw [if_neg (by omega), if_neg (by omega)]
      · simp only [List.length_cons] at hlen
        omega

/-- C5 witness: one concrete input through each of the five behaviours
(1-byte success, 2-byte success and failure, 4-byte success and failure). -/
theorem C5_coordinate_decoder_witness :
    decodeCoordinateNumber (0x82 :: [7]) =
      some (.fin ((((0x82 >>> 1 : ℕ) : ℤ) : ℚ) - 64), [7]) ∧
    decodeCoordinateNumber (0x81 :: [0x40]) =
      some (.fin (((((peekU16le 0x81 0x40 >>> 2 : ℕ) : ℤ) : ℚ) - 8192) / 64),
        []) ∧
    decodeCoordinateNumber (0x81 :: []) = none ∧
    decodeCoordinateNumber (0x83 :: [0, 0, 0x42, 5]) =
      some (f32FromBits (0xFFFFFFFC &&& peekU32le 0x83 0 0 0x42), [5]) ∧
    decodeCoordinateNumber (0x83 :: [0, 0]) = none :=
  ⟨(C5_coordinate_decoder 0x82 [7]).2.1 (by decide),
   ((C5_coordinate_decoder 0x81 [0x40]).2.2.1 (by decide) (by decide)).1
     0x40 [] rfl,
   ((C5_coordinate_decoder 0x81 []).2.2.1 (by decide) (by decide)).2 rfl,
   ((C5_coordinate_decoder 0x83 [0, 0, 0x42, 5]).2.2.2 (by decide)
     (by decide)).1 0 0 0x42 [5] rfl,
   ((C5_coordinate_decoder 0x83 [0, 0]).2.2.2 (by decide) (by decide)).2
     (by decide)⟩

/-- C9: running out of bytes in styling mode ends the interpreter loop with
a NULL error (success); running out in drawing mode ends it with
*bad path unfinished*. -/
theorem C9_exhaustion (env : Env) (cv : Canvas) (fuel : ℕ) (hf : 0 < fuel)
    (tr : Trace) (st : EState) (hd : st.d = []) :
    (st.mode = .styling → execLoop env cv fuel tr st = (none, tr, [])) ∧
    (st.mode = .drawing →
      execLoop env cv fuel tr st = (some .badPathUnfinished, tr, [])) := by
  cases fuel with
  | zero => exact absurd hf (by omega)
  | succ n =>
    constructor
    · intro hm
      simp only [execLoop, execStep, hm, stylingStep, hd]
    · intro hm
      simp only [execLoop, execStep, hm, drawingStep, hd]

/-- C9 witness: the interpreter on an empty cursor, in each mode. -/
theorem C9_exhaustion_witness :
    execLoop sampleEnv sampleCanvas 1 []
      (initExecState rect0 [] rect0 defaultPalette (List.replicate 64 (.fin 0))
        defaultPalette ⟨0, 0, 0, 0⟩ 0) = (none, [], []) ∧
    execLoop sampleEnv sampleCanvas 1 []
      { initExecState rect0 [] rect0 defaultPalette (List.replicate 64 (.fin 0))
          defaultPalette ⟨0, 0, 0, 0⟩ 0 with mode := .drawing } =
      (some .badPathUnfinished, [], []) :=
  ⟨(C9_exhaustion sampleEnv sampleCanvas 1 (by decide) []
      (initExecState rect0 [] rect0 defaultPalette (List.replicate 64 (.fin 0))
        defaultPalette ⟨0, 0, 0, 0⟩ 0) rfl).1 rfl,
   (C9_exhaustion sampleEnv sampleCanvas 1 (by decide) []
      { initExecState rect0 [] rect0 defaultPalette (List.replicate 64 (.fin 0))
          defaultPalette ⟨0, 0, 0, 0⟩ 0 with mode := .drawing } rfl).2 rfl⟩

/-- C10: with a NULL `dst_canvas` (or a NULL vtable), `iconvg_decode`
substitutes the broken canvas and does not fail with *null argument*: the
decode body runs to completion against it and the call returns NULL
(the broken canvas's `end_decode` result), whatever the input. -/
theorem C10_null_canvas (env : Env) (r : Rect) (src : List ℕ)
    (opts : DecodeOptions) :
    (iconvgDecode env none r src opts).1 = none ∧
    ∃ res trB dR,
      privateDecode env brokenCanvasNull r [(true, .beginDecode r)] src opts =
        (res, trB, dR) ∧
      (iconvgDecode env none r src opts).2 =
        trB ++ [(true, .endDecode res (src.length - dR.length) dR.length)] := by
  rcases hpd : privateDecode env brokenCanvasNull r [(true, .beginDecode r)]
      src opts with ⟨res, trB, dR⟩
  have hresp : ∀ hist e, brokenCanvasNull.respond hist e = none := fun _ _ => rfl
  have hsz : brokenCanvasNull.sizeofOk = true := rfl
  refine ⟨?_, res, trB, dR, rfl, ?_⟩
  · simp [iconvgDecode, respondTo, hresp, hsz, hpd]
  · simp [iconvgDecode, respondTo, hresp, hsz, hpd]

/-- A canvas whose C `sizeof_iconvg_canvas_vtable` field does not match
(e.g. built against another library version). -/
def badVtableCanvas : Canvas :=
  { sizeofOk := false, respond := fun _ _ => none }

/-- C2 counterexample: with a canvas whose vtable-size field check fails,
`iconvg_decode` returns *unsupported vtable* before invoking any callback:
`begin_decode` and `end_decode` are invoked zero times, not once. -/
theorem C2_counterexample :
    (iconvgDecode sampleEnv (some badVtableCanvas) rect0 [] ⟨none, none⟩).1 =
      some .unsupportedVtable ∧
    (iconvgDecode sampleEnv (some badVtableCanvas) rect0 [] ⟨none, none⟩).2 =
      [] := by
  decide

/-- C2 (amended): for every canvas that passes the vtable-size check,
`iconvg_decode` emits `begin_decode` first and `end_decode` last with no
other bookend events in between (each is invoked exactly once); the
`end_decode` arguments `consumed` and `remaining` sum to the source length;
the error funnelled into `end_decode` is the `begin_decode` error if any,
else the decode body's result; and the call returns exactly the canvas's
response to `end_decode`. -/
theorem C2_decode_bookends (env : Env) (cv : Canvas) (r : Rect) (src : List ℕ)
    (opts : DecodeOptions) (hsz : cv.sizeofOk = true) :
    ∃ errArg consumed remaining trB,
      consumed + remaining = src.length ∧
      (iconvgDecode env (some cv) r src opts).2 =
        (true, Event.beginDecode r) :: trB ++
          [(true, Event.endDecode errArg consumed remaining)] ∧
      (∀ te ∈ trB, te.2.isBeginDecode = false ∧ te.2.isEndDecode = false) ∧
      (iconvgDecode env (some cv) r src opts).1 =
        cv.respond (userEvents ((true, Event.beginDecode r) :: trB))
          (Event.endDecode errArg consumed remaining) ∧
      (match cv.respond [] (Event.beginDecode r) with
       | some e => errArg = some e
       | none => errArg =
           (privateDecode env cv r [(true, Event.beginDecode r)] src opts).1) := by
  cases hbd : cv.respond [] (Event.beginDecode r) with
  | some e =>
    refine ⟨some e, src.length - src.length, src.length, [], by omega, ?_, ?_, ?_, ?_⟩
    · simp [iconvgDecode, hsz, hbd]
    · intro te hte; simp at hte
    · simp [iconvgDecode, hsz, hbd, respondTo]
    · rfl
  | none =>
    rcases hpd : privateDecode env cv r [(true, .beginDecode r)] src opts
      with ⟨res, trB, dR⟩
    obtain ⟨⟨mid, hmid, hbk⟩, hlen⟩ := privateDecode_ok hpd
    refine ⟨res, src.length - dR.length, dR.length, mid, by omega, ?_, ?_, ?_, ?_⟩
    · simp only [iconvgDecode, hsz, Option.getD, hbd, hpd]
      simp [hmid]
    · intro te hte
      exact not_bookend_not_bd (hbk te hte)
    · simp only [iconvgDecode, hsz, Option.getD, hbd, hpd]
      simp [respondTo, hmid]
    · rfl

/-- C2 witness: a concrete decode (bad magic input) on `sampleCanvas`. -/
theorem C2_decode_bookends_witness :
    ∃ errArg consumed remaining trB,
      consumed + remaining = ([0, 0] : List ℕ).length ∧
      (iconvgDecode sampleEnv (some sampleCanvas) rect0 [0, 0] ⟨none, none⟩).2 =
        (true, Event.beginDecode rect0) :: trB ++
          [(true, Event.endDecode errArg consumed remaining)] ∧
      (∀ te ∈ trB, te.2.isBeginDecode = false ∧ te.2.isEndDecode = false) ∧
      (iconvgDecode sampleEnv (some sampleCanvas) rect0 [0, 0] ⟨none, none⟩).1 =
        sampleCanvas.respond
          (userEvents ((true, Event.beginDecode rect0) :: trB))
          (Event.endDecode errArg consumed remaining) ∧
      (match sampleCanvas.respond [] (Event.beginDecode rect0) with
       | some e => errArg = some e
       | none => errArg =
           (privateDecode sampleEnv sampleCanvas rect0
             [(true, Event.beginDecode rect0)] [0, 0] ⟨none, none⟩).1) :=
  C2_decode_bookends sampleEnv sampleCanvas rect0 [0, 0] ⟨none, none⟩ rfl

/-- The adjustments table never exceeds 6. -/
theorem adjustments_le (n : ℕ) : adjustments n ≤ 6 := by
  unfold adjustments
  split <;> omega

/-- C6: for every styling opcode in `0x80..0xBF`, the written register index
is `(sel[kind] - adjustments[op & 7]) mod 64` (as signed arithmetic on the
32-bit counter), always below 64; `sel[kind]` is bumped by one (wrapping)
exactly when `(op & 7) == 7`; and a continuing step writes exactly one CREG
slot at that index (keeping NREG and `sel[1]`) when `op < 0xA8`, exactly
one NREG slot (keeping CREG and `sel[0]`) otherwise. -/
theorem C6_register_writes (env : Env) (cv : Canvas) (tr : Trace)
    (st : EState) (opcode : ℕ) (d1 : List ℕ) (hd : st.d = opcode :: d1)
    (hlo : 0x80 ≤ opcode) (hhi : opcode < 0xC0) :
    ((regIndex st.sel0 opcode : ℤ) =
        ((st.sel0 : ℤ) - (adjustments (opcode % 8) : ℤ)) % 64 ∧
      regIndex st.sel0 opcode < 64) ∧
    ((regIndex st.sel1 opcode : ℤ) =
        ((st.sel1 : ℤ) - (adjustments (opcode % 8) : ℤ)) % 64 ∧
      regIndex st.sel1 opcode < 64) ∧
    (∀ sel : ℕ, (opcode % 8 = 7 → selBump sel opcode = (sel + 1) % 2 ^ 32) ∧
      (opcode % 8 ≠ 7 → selBump sel opcode = sel)) ∧
    (∀ st1, stylingStep env cv tr st = (tr, .cont st1) →
      (opcode < 0xA8 →
        ∃ c d2, st1 = { st with creg := st.creg.set (regIndex st.sel0 opcode) c,
                                sel0 := selBump st.sel0 opcode, d := d2 }) ∧
      (0xA8 ≤ opcode →
        ∃ v d2, st1 = { st with nreg := st.nreg.set (regIndex st.sel1 opcode) v,
                                sel1 := selBump st.sel1 opcode, d := d2 })) := by
  have ha := adjustments_le (opcode % 8)
  refine ⟨⟨?_, ?_⟩, ⟨?_, ?_⟩, ?_, ?_⟩
  · unfold regIndex; omega
  · exact Nat.mod_lt _ (by norm_num)
  · unfold regIndex; omega
  · exact Nat.mod_lt _ (by norm_num)
  · intro sel
    constructor
    · intro h7; simp only [selBump, if_pos h7]
    · intro h7; simp only [selBump, if_neg h7]
  · intro st1 h
    unfold stylingStep at h
    simp only [hd] at h
    rw [if_neg (show ¬opcode < 0x80 by omega)] at h
    by_cases h2 : opcode < 0x88
    · rw [if_pos h2] at h
      split at h
      · rename_i p0 d2
        simp only [Prod.mk.injEq, StepNext.cont.injEq] at h
        constructor
        · intro _
          exact ⟨_, d2, h.2.symm⟩
        · intro hge; omega
      · simp at h
    · rw [if_neg h2] at h
      by_cases h3 : opcode < 0x90
      · rw [if_pos h3] at h
        split at h
        · rename_i p0 p1 d2
          simp only [Prod.mk.injEq, StepNext.cont.injEq] at h
          exact ⟨fun _ => ⟨_, d2, h.2.symm⟩, fun hge => absurd hge (by omega)⟩
        · simp at h
      · rw [if_neg h3] at h
        by_cases h4 : opcode < 0x98
        · rw [if_pos h4] at h
          split at h
          · rename_i p0 p1 p2 d2
            simp only [Prod.mk.injEq, StepNext.cont.injEq] at h
            exact ⟨fun _ => ⟨_, d2, h.2.symm⟩, fun hge => absurd hge (by omega)⟩
          · simp at h
        · rw [if_neg h4] at h
          by_cases h5 : opcode < 0xA0
          · rw [if_pos h5] at h
            split at h
            · rename_i p0 p1 p2 p3 d2
              simp only [Prod.mk.injEq, StepNext.cont.injEq] at h
              exact ⟨fun _ => ⟨_, d2, h.2.symm⟩, fun hge => absurd hge (by omega)⟩
            · simp at h
          · rw [if_neg h5] at h
            by_cases h6 : opcode < 0xA8
            · rw [if_pos h6] at h
              split at h
              · rename_i p0 p1 p2 d2
                simp only [Prod.mk.injEq, StepNext.cont.injEq] at h
                exact ⟨fun _ => ⟨_, d2, h.2.symm⟩, fun hge => absurd hge (by omega)⟩
              · simp at h
            · rw [if_neg h6] at h
              by_cases h7 : opcode < 0xB0
              · rw [if_pos h7] at h
                split at h
                · rename_i num d2 heq1
                  simp only [Prod.mk.injEq, StepNext.cont.injEq] at h
                  exact ⟨fun hlt => absurd hlt (by omega),
                         fun _ => ⟨num, d2, h.2.symm⟩⟩
                · simp at h
              · rw [if_neg h7] at h
                by_cases h8 : opcode < 0xB8
                · rw [if_pos h8] at h
                  split at h
                  · rename_i num d2 heq1
                    simp only [Prod.mk.injEq, StepNext.cont.injEq] at h
                    exact ⟨fun hlt => absurd hlt (by omega),
                           fun _ => ⟨num, d2, h.2.symm⟩⟩
                  · simp at h
                · rw [if_neg h8] at h
                  rw [if_pos (by omega)] at h
                  split at h
                  · rename_i num d2 heq1
                    simp only [Prod.mk.injEq, StepNext.cont.injEq] at h
                    exact ⟨fun hlt => absurd hlt (by omega),
                           fun _ => ⟨num, d2, h.2.symm⟩⟩
                  · simp at h

/-- C6 witness: opcode `0x87` (1-byte color, adjustment 0, selector bump)
on the initial interpreter state. -/
theorem C6_register_writes_witness :
    ((regIndex (initExecState rect0 [0x87, 0] rect0 defaultPalette
          (List.replicate 64 (.fin 0)) defaultPalette ⟨0, 0, 0, 0⟩ 0).sel0
            0x87 : ℤ) =
        (((initExecState rect0 [0x87, 0] rect0 defaultPalette
          (List.replicate 64 (.fin 0)) defaultPalette ⟨0, 0, 0, 0⟩ 0).sel0 : ℤ) -
          (adjustments (0x87 % 8) : ℤ)) % 64 ∧
      regIndex (initExecState rect0 [0x87, 0] rect0 defaultPalette
          (List.replicate 64 (.fin 0)) defaultPalette ⟨0, 0, 0, 0⟩ 0).sel0
        0x87 < 64) ∧
    ((regIndex (initExecState rect0 [0x87, 0] rect0 defaultPalette
          (List.replicate 64 (.fin 0)) defaultPalette ⟨0, 0, 0, 0⟩ 0).sel1
            0x87 : ℤ) =
        (((initExecState rect0 [0x87, 0] rect0 defaultPalette
          (List.replicate 64 (.fin 0)) defaultPalette ⟨0, 0, 0, 0⟩ 0).sel1 : ℤ) -
          (adjustments (0x87 % 8) : ℤ)) % 64 ∧
      regIndex (initExecState rect0 [0x87, 0] rect0 defaultPalette
          (List.replicate 64 (.fin 0)) defaultPalette ⟨0, 0, 0, 0⟩ 0).sel1
        0x87 < 64) ∧
    (∀ sel : ℕ, (0x87 % 8 = 7 → selBump sel 0x87 = (sel + 1) % 2 ^ 32) ∧
      (0x87 % 8 ≠ 7 → selBump sel 0x87 = sel)) ∧
    (∀ st1, stylingStep sampleEnv sampleCanvas []
        (initExecState rect0 [0x87, 0] rect0 defaultPalette
          (List.replicate 64 (.fin 0)) defaultPalette ⟨0, 0, 0, 0⟩ 0) =
          ([], .cont st1) →
      (0x87 < 0xA8 →
        ∃ c d2, st1 = { initExecState rect0 [0x87, 0] rect0 defaultPalette
            (List.replicate 64 (.fin 0)) defaultPalette ⟨0, 0, 0, 0⟩ 0 with
          creg := (initExecState rect0 [0x87, 0] rect0 defaultPalette
              (List.replicate 64 (.fin 0)) defaultPalette ⟨0, 0, 0, 0⟩ 0).creg.set
            (regIndex (initExecState rect0 [0x87, 0] rect0 defaultPalette
              (List.replicate 64 (.fin 0)) defaultPalette ⟨0, 0, 0, 0⟩ 0).sel0
              0x87) c,
          sel0 := selBump (initExecState rect0 [0x87, 0] rect0 defaultPalette
              (List.replicate 64 (.fin 0)) defaultPalette ⟨0, 0, 0, 0⟩ 0).sel0
            0x87,
          d := d2 }) ∧
      (0xA8 ≤ 0x87 →
        ∃ v d2, st1 = { initExecState rect0 [0x87, 0] rect0 defaultPalette
            (List.replicate 64 (.fin 0)) defaultPalette ⟨0, 0, 0, 0⟩ 0 with
          nreg := (initExecState rect0 [0x87, 0] rect0 defaultPalette
              (List.replicate 64 (.fin 0)) defaultPalette ⟨0, 0, 0, 0⟩ 0).nreg.set
            (regIndex (initExecState rect0 [0x87, 0] rect0 defaultPalette
              (List.replicate 64 (.fin 0)) defaultPalette ⟨0, 0, 0, 0⟩ 0).sel1
              0x87) v,
          sel1 := selBump (initExecState rect0 [0x87, 0] rect0 defaultPalette
              (List.replicate 64 (.fin 0)) defaultPalette ⟨0, 0, 0, 0⟩ 0).sel1
            0x87,
          d := d2 })) :=
  C6_register_writes sampleEnv sampleCanvas []
    (initExecState rect0 [0x87, 0] rect0 defaultPalette
      (List.replicate 64 (.fin 0)) defaultPalette ⟨0, 0, 0, 0⟩ 0)
    0x87 [0] rfl (by decide) (by decide)

/-- A continuing `finishOp` means every callback succeeded: the new state is
the prepared one and the trace grows by exactly the event list, flagged with
the canvas choice. -/
theorem finishOp_cont {cv : Canvas} {u : Bool} {tr : Trace} {es : List Event}
    {dR : List ℕ} {stC : EState} {tr1 : Trace} {st1 : EState}
    (h : finishOp cv u tr es dR stC = (tr1, .cont st1)) :
    st1 = stC ∧ tr1 = tr ++ es.map (fun e => (u, e)) := by
  unfold finishOp at h
  cases hem : emitSeq cv u tr es with
  | mk trE res =>
    rw [hem] at h
    cases res with
    | some err => simp at h
    | none =>
      simp only [Prod.mk.injEq, StepNext.cont.injEq] at h
      exact ⟨h.2.symm, by rw [← h.1]; exact emitSeq_none cv u es tr trE hem⟩

/-- C7: the LOD bounds start at `(0, +inf)`; a styling opcode `0xC0..0xC6`
that continues switches to drawing mode with the current-canvas flag equal
to the gate `lod0 <= height_in_pixels < lod1` (computed in `double`), and
`begin_drawing` and `begin_path` are invoked on the so-gated canvas; and
every drawing-mode step delivers all of its callbacks to the current
(gated) canvas. -/
theorem C7_lod_gating (env : Env) (cv : Canvas) (tr : Trace) (st : EState)
    (opcode : ℕ) (d1 : List ℕ) (cx cy : FV) (d2 d3 : List ℕ)
    (r : Rect) (d : List ℕ) (vb : Rect) (creg : Palette) (nreg : List FV)
    (pal : Palette) (p0 : Color) (hh : ℤ)
    (hd : st.d = opcode :: d1) (hlo : 0xC0 ≤ opcode) (hhi : opcode < 0xC7)
    (hpaint : env.paintInvalid (st.creg.getD (regIndex st.sel0 opcode)
      ⟨0, 0, 0, 0⟩) = false)
    (h1 : decodeCoordinateNumber d1 = some (cx, d2))
    (h2 : decodeCoordinateNumber d2 = some (cy, d3)) :
    (initExecState r d vb creg nreg pal p0 hh).lod0 = .fin 0 ∧
    (initExecState r d vb creg nreg pal p0 hh).lod1 = .inf false ∧
    (∀ tr1 st1, stylingStep env cv tr st = (tr1, .cont st1) →
      st1.mode = .drawing ∧
      st1.curUser = (FV.le st.lod0 (heightF64 st) &&
                     FV.lt (heightF64 st) st.lod1) ∧
      tr1 = tr ++ [(st1.curUser, .beginDrawing),
                   (st1.curUser, .beginPath (txX st cx) (txY st cy))]) ∧
    (∀ (st' : EState) (tr' : Trace) (out : Trace × StepNext),
      drawingStep env cv tr' st' = out →
      ∃ mid, out.1 = tr' ++ mid ∧ ∀ te ∈ mid, te.1 = st'.curUser) := by
  refine ⟨rfl, rfl, ?_, ?_⟩
  · intro tr1 st1 h
    unfold stylingStep at h
    simp only [hd] at h
    rw [if_neg (show ¬opcode < 0x80 by omega),
        if_neg (show ¬opcode < 0x88 by omega),
        if_neg (show ¬opcode < 0x90 by omega),
        if_neg (show ¬opcode < 0x98 by omega),
        if_neg (show ¬opcode < 0xA0 by omega),
        if_neg (show ¬opcode < 0xA8 by omega),
        if_neg (show ¬opcode < 0xB0 by omega),
        if_neg (show ¬opcode < 0xB8 by omega),
        if_neg (show ¬opcode < 0xC0 by omega),
        if_pos hhi] at h
    rw [if_neg (show ¬env.paintInvalid (st.creg.getD (regIndex st.sel0 opcode)
      ⟨0, 0, 0, 0⟩) = true by rw [hpaint]; decide)] at h
    simp only [h1, h2] at h
    obtain ⟨hst, htr⟩ := finishOp_cont h
    subst hst
    exact ⟨rfl, rfl, htr⟩
  · intro st' tr' out hstep
    obtain ⟨⟨mid, hmid, hall⟩, -, -⟩ := drawingStep_ok env cv tr' st' out hstep
    exact ⟨mid, hmid, fun te hte => (hall te hte).1⟩

/-- C7 witness: opcode `0xC0` with two zero coordinates, from the initial
interpreter state (whose gate is `0 <= 0 < +inf`, i.e. the user canvas). -/
theorem C7_lod_gating_witness :
    (initExecState rect0 [] rect0 defaultPalette
        (List.replicate 64 (.fin 0)) defaultPalette ⟨0, 0, 0, 0⟩ 0).lod0 =
      .fin 0 ∧
    (initExecState rect0 [] rect0 defaultPalette
        (List.replicate 64 (.fin 0)) defaultPalette ⟨0, 0, 0, 0⟩ 0).lod1 =
      .inf false ∧
    (∀ tr1 st1, stylingStep sampleEnv sampleCanvas []
        (initExecState rect0 [0xC0, 0x80, 0x80] rect0 defaultPalette
          (List.replicate 64 (.fin 0)) defaultPalette ⟨0, 0, 0, 0⟩ 0) =
        (tr1, .cont st1) →
      st1.mode = .drawing ∧
      st1.curUser =
        (FV.le (initExecState rect0 [0xC0, 0x80, 0x80] rect0 defaultPalette
            (List.replicate 64 (.fin 0)) defaultPalette ⟨0, 0, 0, 0⟩ 0).lod0
          (heightF64 (initExecState rect0 [0xC0, 0x80, 0x80] rect0
            defaultPalette (List.replicate 64 (.fin 0)) defaultPalette
            ⟨0, 0, 0, 0⟩ 0)) &&
         FV.lt (heightF64 (initExecState rect0 [0xC0, 0x80, 0x80] rect0
            defaultPalette (List.replicate 64 (.fin 0)) defaultPalette
            ⟨0, 0, 0, 0⟩ 0))
          (initExecState rect0 [0xC0, 0x80, 0x80] rect0 defaultPalette
            (List.replicate 64 (.fin 0)) defaultPalette ⟨0, 0, 0, 0⟩ 0).lod1) ∧
      tr1 = [] ++ [(st1.curUser, .beginDrawing),
        (st1.curUser, .beginPath
          (txX (initExecState rect0 [0xC0, 0x80, 0x80] rect0 defaultPalette
            (List.replicate 64 (.fin 0)) defaultPalette ⟨0, 0, 0, 0⟩ 0)
            (.fin 0))
          (txY (initExecState rect0 [0xC0, 0x80, 0x80] rect0 defaultPalette
            (List.replicate 64 (.fin 0)) defaultPalette ⟨0, 0, 0, 0⟩ 0)
            (.fin 0)))]) ∧
    (∀ (st' : EState) (tr' : Trace) (out : Trace × StepNext),
      drawingStep sampleEnv sampleCanvas tr' st' = out →
      ∃ mid, out.1 = tr' ++ mid ∧ ∀ te ∈ mid, te.1 = st'.curUser) :=
  C7_lod_gating sampleEnv sampleCanvas []
    (initExecState rect0 [0xC0, 0x80, 0x80] rect0 defaultPalette
      (List.replicate 64 (.fin 0)) defaultPalette ⟨0, 0, 0, 0⟩ 0)
    0xC0 [0x80, 0x80] (.fin 0) (.fin 0) [0x80] []
    rect0 [] rect0 defaultPalette (List.replicate 64 (.fin 0)) defaultPalette
    ⟨0, 0, 0, 0⟩ 0 rfl (by decide) (by decide) rfl
    (by with_unfolding_all rfl) (by with_unfolding_all rfl)

/-- C8: after every quadratic emission ('T', 't', 'Q', 'q') the implicit
control point `(x1, y1)` becomes the reflection
`(2*end - control)` of the sole control point through the new endpoint
(computed in `float`, on graphic-space coordinates); the emitted
`path_quad_to` uses, for the smooth forms, the previous implicit control
`(x1, y1)`. -/
theorem C8_smooth_quad (cv : Canvas) :
    (∀ (st : EState) (tr : Trace) (ex ey : FV) (d1 d2 : List ℕ)
        (tr1 : Trace) (st1 : EState),
      decodeCoordinateNumber st.d = some (ex, d1) →
      decodeCoordinateNumber d1 = some (ey, d2) →
      doQuadSmoothAbs cv tr st = (tr1, .cont st1) →
      st1.x1 = f32Sub (f32Mul (.fin 2) ex) st.x1 ∧
      st1.y1 = f32Sub (f32Mul (.fin 2) ey) st.y1 ∧
      st1.currX = ex ∧ st1.currY = ey ∧
      tr1 = tr ++ [(st.curUser, .pathQuadTo (txX st st.x1) (txY st st.y1)
        (txX st ex) (txY st ey))]) ∧
    (∀ (st : EState) (tr : Trace) (dx dy : FV) (d1 d2 : List ℕ)
        (tr1 : Trace) (st1 : EState),
      decodeCoordinateNumber st.d = some (dx, d1) →
      decodeCoordinateNumber d1 = some (dy, d2) →
      doQuadSmoothRel cv tr st = (tr1, .cont st1) →
      st1.x1 = f32Sub (f32Mul (.fin 2) (f32Add dx st.currX)) st.x1 ∧
      st1.y1 = f32Sub (f32Mul (.fin 2) (f32Add dy st.currY)) st.y1 ∧
      st1.currX = f32Add dx st.currX ∧ st1.currY = f32Add dy st.currY ∧
      tr1 = tr ++ [(st.curUser, .pathQuadTo (txX st st.x1) (txY st st.y1)
        (txX st (f32Add dx st.currX)) (txY st (f32Add dy st.currY)))]) ∧
    (∀ (st : EState) (tr : Trace) (cx cy ex ey : FV) (d1 d2 d3 d4 : List ℕ)
        (tr1 : Trace) (st1 : EState),
      decodeCoordinateNumber st.d = some (cx, d1) →
      decodeCoordinateNumber d1 = some (cy, d2) →
      decodeCoordinateNumber d2 = some (ex, d3) →
      decodeCoordinateNumber d3 = some (ey, d4) →
      doQuadAbs cv tr st = (tr1, .cont st1) →
      st1.x1 = f32Sub (f32Mul (.fin 2) ex) cx ∧
      st1.y1 = f32Sub (f32Mul (.fin 2) ey) cy ∧
      st1.currX = ex ∧ st1.currY = ey ∧
      tr1 = tr ++ [(st.curUser, .pathQuadTo (txX st cx) (txY st cy)
        (txX st ex) (txY st ey))]) ∧
    (∀ (st : EState) (tr : Trace) (dcx dcy dex dey : FV) (d1 d2 d3 d4 : List ℕ)
        (tr1 : Trace) (st1 : EState),
      decodeCoordinateNumber st.d = some (dcx, d1) →
      decodeCoordinateNumber d1 = some (dcy, d2) →
      decodeCoordinateNumber d2 = some (dex, d3) →
      decodeCoordinateNumber d3 = some (dey, d4) →
      doQuadRel cv tr st = (tr1, .cont st1) →
      st1.x1 = f32Sub (f32Mul (.fin 2) (f32Add dex st.currX))
        (f32Add dcx st.currX) ∧
      st1.y1 = f32Sub (f32Mul (.fin 2) (f32Add dey st.currY))
        (f32Add dcy st.currY) ∧
      st1.currX = f32Add dex st.currX ∧ st1.currY = f32Add dey st.currY ∧
      tr1 = tr ++ [(st.curUser,
        .pathQuadTo (txX st (f32Add dcx st.currX)) (txY st (f32Add dcy st.currY))
          (txX st (f32Add dex st.currX)) (txY st (f32Add dey st.currY)))]) := by
  refine ⟨?_, ?_, ?_, ?_⟩
  · intro st tr ex ey d1 d2 tr1 st1 h1 h2 h
    unfold doQuadSmoothAbs at h
    simp only [h1, h2] at h
    obtain ⟨hst, htr⟩ := finishOp_cont h
    subst hst
    exact ⟨rfl, rfl, rfl, rfl, htr⟩
  · intro st tr dx dy d1 d2 tr1 st1 h1 h2 h
    unfold doQuadSmoothRel at h
    simp only [h1, h2] at h
    obtain ⟨hst, htr⟩ := finishOp_cont h
    subst hst
    exact ⟨rfl, rfl, rfl, rfl, htr⟩
  · intro st tr cx cy ex ey d1 d2 d3 d4 tr1 st1 h1 h2 h3 h4 h
    unfold doQuadAbs at h
    simp only [h1, h2, h3, h4] at h
    obtain ⟨hst, htr⟩ := finishOp_cont h
    subst hst
    exact ⟨rfl, rfl, rfl, rfl, htr⟩
  · intro st tr dcx dcy dex dey d1 d2 d3 d4 tr1 st1 h1 h2 h3 h4 h
    unfold doQuadRel at h
    simp only [h1, h2, h3, h4] at h
    obtain ⟨hst, htr⟩ := finishOp_cont h
    subst hst
    exact ⟨rfl, rfl, rfl, rfl, htr⟩

/-- A drawing-mode state (identity transform, user canvas) whose cursor
holds the coordinates of an absolute 'Q' with control `(1, 1)` and endpoint
`(2, 2)`, followed by those of an absolute 'T' with endpoint `(4, 2)`. -/
def quadStartState : EState :=
  { initExecState rect0 [] rect0 defaultPalette (List.replicate 64 (.fin 0))
      defaultPalette ⟨0, 0, 0, 0⟩ 0 with
    mode := .drawing, curUser := true,
    d := [0x82, 0x82, 0x84, 0x84, 0x88, 0x84] }

/-- `quadStartState` after the 'Q': at `(2, 2)` with implicit control
`(3, 3)` (the reflection of `(1, 1)` through `(2, 2)`). -/
def quadMidState : EState :=
  { quadStartState with
    currX := .fin 2, currY := .fin 2, x1 := .fin 3, y1 := .fin 3,
    x2 := .fin 2, y2 := .fin 2, d := [0x88, 0x84] }

/-- `quadMidState` after the 'T': at `(4, 2)` with implicit control
`(5, 1)`. -/
def quadEndState : EState :=
  { quadMidState with
    currX := .fin 4, currY := .fin 2, x1 := .fin 5, y1 := .fin 1,
    x2 := .fin 4, y2 := .fin 2, d := [] }

set_option maxRecDepth 8000 in
/-- C8 witness: the claim's `Q (1,1) (2,2)` then `T (4,2)` scenario: the
'T' emits `path_quad_to` with the implicit control `(3, 3)` in graphic
space (equal, under this identity transform, to the emitted argument). -/
theorem C8_smooth_quad_witness :
    doQuadAbs sampleCanvas [] quadStartState =
      ([(true, .pathQuadTo (.fin 1) (.fin 1) (.fin 2) (.fin 2))],
        .cont quadMidState) ∧
    quadMidState.x1 = .fin 3 ∧ quadMidState.y1 = .fin 3 ∧
    txX quadMidState (.fin 3) = .fin 3 ∧ txY quadMidState (.fin 3) = .fin 3 ∧
    (quadMidState.x1 = f32Sub (f32Mul (.fin 2) (.fin 2)) (.fin 1) ∧
     quadMidState.y1 = f32Sub (f32Mul (.fin 2) (.fin 2)) (.fin 1) ∧
     quadMidState.currX = .fin 2 ∧ quadMidState.currY = .fin 2 ∧
     [(true, Event.pathQuadTo (.fin 1) (.fin 1) (.fin 2) (.fin 2))] =
       ([] : Trace) ++ [(quadStartState.curUser,
         .pathQuadTo (txX quadStartState (.fin 1)) (txY quadStartState (.fin 1))
           (txX quadStartState (.fin 2)) (txY quadStartState (.fin 2)))]) ∧
    doQuadSmoothAbs sampleCanvas [] quadMidState =
      ([(true, .pathQuadTo (.fin 3) (.fin 3) (.fin 4) (.fin 2))],
        .cont quadEndState) ∧
    (quadEndState.x1 = f32Sub (f32Mul (.fin 2) (.fin 4)) quadMidState.x1 ∧
     quadEndState.y1 = f32Sub (f32Mul (.fin 2) (.fin 2)) quadMidState.y1 ∧
     quadEndState.currX = .fin 4 ∧ quadEndState.currY = .fin 2 ∧
     [(true, Event.pathQuadTo (.fin 3) (.fin 3) (.fin 4) (.fin 2))] =
       ([] : Trace) ++ [(quadMidState.curUser,
         .pathQuadTo (txX quadMidState quadMidState.x1)
           (txY quadMidState quadMidState.y1)
           (txX quadMidState (.fin 4)) (txY quadMidState (.fin 2)))]) :=
  ⟨by with_unfolding_all rfl, rfl, rfl,
   by with_unfolding_all rfl, by with_unfolding_all rfl,
   (C8_smooth_quad sampleCanvas).2.2.1 quadStartState [] (.fin 1) (.fin 1)
     (.fin 2) (.fin 2) [0x82, 0x84, 0x84, 0x88, 0x84] [0x84, 0x84, 0x88, 0x84]
     [0x84, 0x88, 0x84] [0x88, 0x84]
     [(true, .pathQuadTo (.fin 1) (.fin 1) (.fin 2) (.fin 2))] quadMidState
     (by with_unfolding_all rfl) (by with_unfolding_all rfl)
     (by with_unfolding_all rfl) (by with_unfolding_all rfl)
     (by with_unfolding_all rfl),
   by with_unfolding_all rfl,
   (C8_smooth_quad sampleCanvas).1 quadMidState [] (.fin 4) (.fin 2)
     [0x84] []
     [(true, .pathQuadTo (.fin 3) (.fin 3) (.fin 4) (.fin 2))] quadEndState
     (by with_unfolding_all rfl) (by with_unfolding_all rfl)
     (by with_unfolding_all rfl)⟩

end IconVG
